import Mathlib

/-!
Shallow embedding of the redis-rust server (src/modules/values.rs,
src/modules/parser.rs, src/modules/db.rs, src/modules/client_handler.rs)
and verification of the specification claims about it.

Strings are modelled as their byte sequences (`List Nat`); Rust `String`
is a UTF-8 byte sequence and every operation the code performs on the
strings appearing here is byte-level (comparison, length, indexing).
`String::from_utf8` is modelled as the identity on the byte list: the
code only applies it to bytes that originate from UTF-8 strings.
Machine integers are modelled as `Nat`/`Int` with the explicit range
checks the Rust parsing functions perform.
-/

namespace RedisRust

/-- A byte sequence (a Rust `Vec<u8>` or the bytes of a `String`). -/
abbrev Bytes := List Nat

/-- The bytes of an ASCII string literal. -/
def strBytes (s : String) : Bytes := s.toList.map Char.toNat

/-- The CRLF terminator bytes. -/
def crlf : Bytes := [13, 10]

/-- An ASCII single-quote byte, spliced into error-message literals. -/
def quo : Bytes := [39]

/-- `is_digit` from parser.rs: `b >= b'0' && b <= b'9'`. -/
def isDigit (b : Nat) : Bool := 48 ≤ b && b ≤ 57

/-- Rust `u8::to_ascii_uppercase` on one byte. -/
def upByte (b : Nat) : Nat := if 97 ≤ b && b ≤ 122 then b - 32 else b

/-- Rust `str::to_ascii_uppercase` / `to_uppercase` on ASCII bytes. -/
def upper (l : Bytes) : Bytes := l.map upByte

/-- Rust `u8::to_ascii_lowercase` on one byte. -/
def lowByte (b : Nat) : Nat := if 65 ≤ b && b ≤ 90 then b + 32 else b

/-- Rust `str::to_lowercase` on ASCII bytes. -/
def lower (l : Bytes) : Bytes := l.map lowByte

/-- The decimal digits (ASCII) of a natural number, as printed by Rust
`format!` — most significant digit first, `0` printed as `"0"`. -/
def natToDec (n : Nat) : Bytes :=
  if n = 0 then [48] else (Nat.digits 10 n).reverse.map (fun d => d + 48)

/-- The decimal representation of a signed integer as printed by Rust
`format!`: a leading `-` for negative values. -/
def intToDec (i : Int) : Bytes :=
  if i < 0 then 45 :: natToDec i.natAbs else natToDec i.toNat

/-- Numeric value of a digit sequence (most significant first). -/
def decDigits (ds : Bytes) : Nat := ds.foldl (fun a d => 10 * a + (d - 48)) 0

/-- `read_uint` from parser.rs: take the digit prefix of the blob and
parse it with `usize::from_str_radix`; the empty digit string and
values outside `usize` are errors. -/
def readUintM (l : Bytes) : Option Nat :=
  let ds := l.takeWhile isDigit
  if ds.isEmpty then none
  else if decDigits ds < 2 ^ 64 then some (decDigits ds) else none

/-- Rust `u64::from_str_radix(s, 10)` / `usize::from_str_radix(s, 10)`
on a whole string: optional leading `+`, then one or more digits, value
within the 64-bit unsigned range. -/
def parseU64 (l : Bytes) : Option Nat :=
  let body := if l.headD 0 = 43 then l.drop 1 else l
  if body.isEmpty || !body.all isDigit then none
  else if decDigits body < 2 ^ 64 then some (decDigits body) else none

/-- Rust `i64::from_str_radix(s, 10)` on a whole string: optional
leading sign, then one or more digits, value within the `i64` range. -/
def parseI64 (l : Bytes) : Option Int :=
  if l.headD 0 = 45 then
    let rest := l.drop 1
    if rest.isEmpty || !rest.all isDigit then none
    else if decDigits rest ≤ 2 ^ 63 then some (-(decDigits rest : Int)) else none
  else if l.headD 0 = 43 then
    let rest := l.drop 1
    if rest.isEmpty || !rest.all isDigit then none
    else if decDigits rest < 2 ^ 63 then some (decDigits rest : Int) else none
  else
    if l.isEmpty || !l.all isDigit then none
    else if decDigits l < 2 ^ 63 then some (decDigits l : Int) else none

/-- A conservative recogniser for the decimal `f64` strings accepted by
`str::parse::<f64>` in the BLPOP arm (`digits` or `digits.digits`).
Modelled from the spec: the source accepts the full Rust float grammar;
only inputs of this restricted shape are reasoned about, so theorems
hypothesising this predicate stay within the source's behaviour. -/
def parseF64ok (l : Bytes) : Bool :=
  let intPart := l.takeWhile isDigit
  let rest := l.drop intPart.length
  !intPart.isEmpty &&
    (rest.isEmpty ||
      (rest.headD 0 = 46 && !(rest.drop 1).isEmpty && (rest.drop 1).all isDigit))

/-- Whether the parsed BLPOP timeout equals `0.0` (`timeout == 0.0`). -/
def f64IsZero (l : Bytes) : Bool :=
  (l.takeWhile isDigit).all (fun b => b = 48) &&
    ((l.drop (l.takeWhile isDigit).length).drop 1).all (fun b => b = 48)

/-- The line-oriented part of `read_blob` viewed over a fully buffered
byte sequence: find the first `\r`; if it is immediately followed by
`\n` the blob is everything up to and including that pair; a `\r` not
followed by `\n` makes the source loop forever, and a missing
terminator makes it wait for more bytes — both are `none` here. -/
def takeLine : Bytes → Option (Bytes × Bytes)
  | [] => none
  | b :: rest =>
      if b = 13 then
        match rest with
        | 10 :: rest2 => some ([13, 10], rest2)
        | _ => none
      else
        match takeLine rest with
        | some (blob, rest2) => some (b :: blob, rest2)
        | none => none

/-- `blob[1..blob.len()-2]`: the content of a CRLF-terminated line
without its leading type byte and trailing `\r\n`. -/
def lineContent (blob : Bytes) : Bytes := (blob.drop 1).dropLast.dropLast

end RedisRust

namespace RedisRust

/-- `RedisValue` from values.rs. The file under verification has the
variants `String`, `Int`, `Array`, `Error`, `Null`; client_handler.rs
additionally uses `RedisValue::NullString` (the same nil bulk value,
encoded `$-1\r\n`) and `RedisValue::NullArray` (encoded `*-1\r\n`).
The values.rs revision declaring the latter two is not in src/;
`nullArray`'s encoding is modelled from the spec (§4.1: NilArray →
`*-1\r\n`), and `nullString` is values.rs's `Null`. -/
inductive RedisValue where
  | str (s : Bytes)
  | int (i : Int)
  | array (vs : List RedisValue)
  | error (e : Bytes)
  | nullString
  | nullArray
deriving Repr

mutual

/-- `RedisValue::encode` from values.rs (`Null` = `nullString`); the
`nullArray` case is modelled from the spec (see `RedisValue`). -/
def encode : RedisValue → Bytes
  | .str s => [36] ++ natToDec s.length ++ crlf ++ s ++ crlf
  | .error e => [45] ++ e ++ crlf
  | .nullString => [36, 45, 49] ++ crlf
  | .nullArray => [42, 45, 49] ++ crlf
  | .int i => [58] ++ intToDec i ++ crlf
  | .array vs => [42] ++ natToDec vs.length ++ crlf ++ encodeList vs
termination_by structural v => v

/-- Concatenation of the encodings of the elements of an array. -/
def encodeList : List RedisValue → Bytes
  | [] => []
  | v :: vs => encode v ++ encodeList vs
termination_by structural vs => vs

end

/-- `RedisValue::get_string` from values.rs: the payload of a `String`
value, an error (`None`) otherwise. -/
def RedisValue.getString : RedisValue → Option Bytes
  | .str s => some s
  | _ => none

/-- `RedisValue::as_simple_string` from values.rs: `+<s>\r\n` for a
`String` value, an error otherwise. -/
def RedisValue.asSimpleString : RedisValue → Option Bytes
  | .str s => some ([43] ++ s ++ crlf)
  | _ => none

mutual

/-- Nesting depth of a value, used as parsing fuel. -/
def depth : RedisValue → Nat
  | .array vs => depthList vs + 1
  | _ => 1
termination_by structural v => v

/-- Maximum nesting depth over a list of values. -/
def depthList : List RedisValue → Nat
  | [] => 0
  | v :: vs => max (depth v) (depthList vs)
termination_by structural vs => vs

end

mutual

/-- The values for which the spec's round-trip claim can be stated on
the source: `String` (the code's single string variant, emitted as a
bulk string), in-range `Int`, and arrays of such values, with the
`usize`-bounded lengths any Rust vector has. -/
def good : RedisValue → Bool
  | .str s => s.length < 2 ^ 64
  | .int i => -(2 ^ 63) ≤ i && i < 2 ^ 63
  | .array vs => vs.length < 2 ^ 64 && goodList vs
  | _ => false
termination_by structural v => v

/-- `good` on every element of a list. -/
def goodList : List RedisValue → Bool
  | [] => true
  | v :: vs => good v && goodList vs
termination_by structural vs => vs

end

/-- The element loop of `RedisParser::array`, parametrised by the
element parser: parse `n` consecutive values. -/
def decodeManyF (f : Bytes → Option (RedisValue × Bytes)) :
    Nat → Bytes → Option (List RedisValue × Bytes)
  | 0, input => some ([], input)
  | n + 1, input =>
      match f input with
      | some (v, rest) =>
          match decodeManyF f n rest with
          | some (vs, rest2) => some (v :: vs, rest2)
          | none => none
      | none => none

/-- `RedisParser::read_value` (parser.rs) viewed over a fully buffered
byte sequence: dispatch on the first byte (`+` simple string, `*`
array, `$` bulk string, `:` integer, anything else an error), returning
the parsed value and the bytes left for the next frame.  `fuel` bounds
the nesting depth (the source recurses once per array nesting level).
The bulk-string case mirrors `bulk_string`: read the header line, parse
the length prefix with `read_uint`, then take exactly `n` payload bytes
and discard `n + 2` bytes (underflow of the source's position counter
when fewer are buffered is `none`). -/
def decodeValue : Nat → Bytes → Option (RedisValue × Bytes)
  | 0, _ => none
  | fuel + 1, input =>
      if input.isEmpty then none
      else if input.headD 0 = 43 then
        match takeLine input with
        | some (blob, rest) => some (.str (lineContent blob), rest)
        | none => none
      else if input.headD 0 = 58 then
        match takeLine input with
        | some (blob, rest) =>
            match parseI64 (lineContent blob) with
            | some i => some (.int i, rest)
            | none => none
        | none => none
      else if input.headD 0 = 36 then
        match takeLine input with
        | some (blob, rest) =>
            match readUintM (blob.drop 1) with
            | some n =>
                if n + 2 ≤ rest.length then
                  some (.str (rest.take n), rest.drop (n + 2))
                else none
            | none => none
        | none => none
      else if input.headD 0 = 42 then
        match takeLine input with
        | some (blob, rest) =>
            match readUintM (blob.drop 1) with
            | some n =>
                match decodeManyF (fun b => decodeValue fuel b) n rest with
                | some (vs, rest2) => some (.array vs, rest2)
                | none => none
            | none => none
        | none => none
      else none

/-- Decoding a complete byte sequence: `read_value` with fuel ample for
any frame that fits in the sequence. -/
def decodeTop (bs : Bytes) : Option (RedisValue × Bytes) :=
  decodeValue (bs.length + 1) bs

end RedisRust

namespace RedisRust

/-- `StringRecord` from db.rs: a stored value plus an optional absolute
expiry instant (modelled in integer milliseconds). -/
structure StringRecord where
  value : RedisValue
  timeLimit : Option Int
deriving Repr

/-- `StringRecord::new`. -/
def StringRecord.new (v : RedisValue) : StringRecord := ⟨v, none⟩

/-- `StringRecord::is_valid`: false when an expiry exists and the
current instant has reached it (`now >= limit`). -/
def StringRecord.isValid (r : StringRecord) (now : Int) : Bool :=
  match r.timeLimit with
  | none => true
  | some limit => decide (now < limit)

/-- `StringRecord::set_value`. The db.rs revision declaring it is not
in src/ (client_handler.rs's INCR arm calls it). Modelled from the
spec (§4.2 INCR: "atomically replace with value+1"): it replaces the
stored value; the expiry field is left as it was. -/
def StringRecord.setValue (r : StringRecord) (v : RedisValue) : StringRecord :=
  { r with value := v }

/-- A list waiter's mailbox, reduced to what the producer can observe:
`true` when the receiver is still live (send succeeds), `false` when it
was dropped (send errors). Delivered payloads go to a task outside this
sequential model and are not tracked. -/
abbrev Waiter := Bool

/-- `ListRecord` from db.rs: the deque of strings plus the FIFO queue
of waiters. -/
structure ListRecord where
  list : List Bytes
  waiters : List Waiter

/-- `ListRecord::new`. -/
def ListRecord.new : ListRecord := ⟨[], []⟩

/-- `ListRecord::from_list`. -/
def ListRecord.fromList (l : List Bytes) : ListRecord := ⟨l, []⟩

/-- `ListRecord::len`. -/
def ListRecord.len (r : ListRecord) : Nat := r.list.length

/-- `ListRecord::is_empty`. -/
def ListRecord.isEmpty (r : ListRecord) : Bool := r.list.isEmpty

/-- The waiter-popping loop shared by `push_front`/`push_back`: pop
waiters until one accepts the value; `some ws` means a live waiter took
it leaving `ws` queued, `none` means every popped waiter was closed
(or none existed) and the value must go onto the list. -/
def deliverToWaiter : List Waiter → Option (List Waiter)
  | [] => none
  | w :: ws => if w then some ws else deliverToWaiter ws

/-- `ListRecord::push_front` from db.rs. -/
def ListRecord.pushFront (r : ListRecord) (v : Bytes) : ListRecord :=
  match deliverToWaiter r.waiters with
  | some ws => { r with waiters := ws }
  | none => ⟨v :: r.list, []⟩

/-- `ListRecord::push_back` from db.rs. -/
def ListRecord.pushBack (r : ListRecord) (v : Bytes) : ListRecord :=
  match deliverToWaiter r.waiters with
  | some ws => { r with waiters := ws }
  | none => ⟨r.list ++ [v], []⟩

/-- `ListRecord::pop_front`. -/
def ListRecord.popFront (r : ListRecord) : Option Bytes × ListRecord :=
  match r.list with
  | [] => (none, r)
  | v :: rest => (some v, ⟨rest, r.waiters⟩)

/-- `StreamEntry` from db.rs: an id and a field map (`HashMap`
modelled as an association list; the map's iteration order is
unspecified in Rust and fixed to insertion order here). -/
structure StreamEntry where
  id : Bytes
  kv : List (Bytes × Bytes)

/-- `StreamRecord` from db.rs. -/
structure StreamRecord where
  entries : List StreamEntry
  waiters : List Waiter

/-- `StreamRecord::new`. -/
def StreamRecord.new : StreamRecord := ⟨[], []⟩

/-- `StreamRecord::push` from db.rs: send the entry to every waiter,
collect the indices whose send failed, then remove those indices one
by one (the source removes by the originally collected indices, so
later removals act on the already-shifted queue — modelled exactly),
and finally append the entry. -/
def StreamRecord.push (r : StreamRecord) (e : StreamEntry) : StreamRecord :=
  let toRemove := (List.range r.waiters.length).filter
    (fun i => r.waiters.getD i true = false)
  let ws := toRemove.foldl (fun l i => l.eraseIdx i) r.waiters
  ⟨r.entries ++ [e], ws⟩

/-- `StreamRecord::peek_last`: the last entry, or a fresh `0-0` entry
with no fields when the stream is empty. -/
def StreamRecord.peekLast (r : StreamRecord) : StreamEntry :=
  match r.entries.getLast? with
  | none => ⟨strBytes "0-0", []⟩
  | some e => e

/-- `DbRecord` from db.rs. -/
inductive DbRecord where
  | string (r : StringRecord)
  | list (r : ListRecord)
  | stream (r : StreamRecord)

/-- `DbRecord::get_string`. -/
def DbRecord.getStringRec : DbRecord → Option StringRecord
  | .string r => some r
  | _ => none

/-- `DbRecord::get_list` / `get_mut_list`. -/
def DbRecord.getList : DbRecord → Option ListRecord
  | .list r => some r
  | _ => none

/-- `DbRecord::get_stream` / `get_mut_stream`. -/
def DbRecord.getStream : DbRecord → Option StreamRecord
  | .stream r => some r
  | _ => none

/-- `DbRecord::get_type`. -/
def DbRecord.getType : DbRecord → Bytes
  | .list _ => strBytes "list"
  | .string _ => strBytes "string"
  | .stream _ => strBytes "stream"

/-- The shared store: `HashMap<String, DbRecord>` as a key-indexed
partial map. -/
def DB := Bytes → Option DbRecord

/-- `HashMap::insert` on the store. -/
def dbInsert (d : DB) (k : Bytes) (v : DbRecord) : DB :=
  fun x => if x = k then some v else d x

/-- `HashSet::insert`: add the element unless present. -/
def setAdd {α : Type} [DecidableEq α] (l : List α) (x : α) : List α :=
  if x ∈ l then l else l ++ [x]

/-- `Registry` from db.rs: channel → subscriber ids, connection id →
channel names, connection id → outbound mailbox (reduced like `Waiter`
to whether a send on it succeeds). -/
structure Registry where
  channels : Bytes → Option (List Nat)
  subscriptions : Nat → Option (List Bytes)
  senders : Nat → Option Bool

/-- Per-connection handler state (the fields of `ClientHandler`
together with the shared `db` and `ps_registry` it holds). -/
structure HState where
  id : Nat
  subscribeMode : Bool
  multiMode : Bool
  queued : List (List RedisValue)
  db : DB
  reg : Registry

/-- How a command execution can fail to produce a response:
`connErr` — the arm returned `Err(..)`/propagated `?`, which unwinds to
`handle_client_async` and closes the connection;
`blocked` — the arm suspended on a waiter mailbox (BLPOP / XREAD
BLOCK), leaving the sequential model;
`crash` — an `unwrap()` of `None`, an out-of-bounds index or an
arithmetic overflow panics the task. -/
inductive Abn where
  | connErr
  | blocked
  | crash
deriving Repr, DecidableEq

/-- `value.get_string()?`: a non-string value propagates an error. -/
def getStrE (v : RedisValue) : Except Abn Bytes :=
  match v.getString with
  | some s => .ok s
  | none => .error .connErr

/-- `args[i]`: Rust indexing panics when out of bounds. -/
def argE (args : List RedisValue) (i : Nat) : Except Abn RedisValue :=
  match args.get? i with
  | some v => .ok v
  | none => .error .crash

/-- `value.as_simple_string()?`. -/
def simpleE (v : RedisValue) : Except Abn Bytes :=
  match v.asSimpleString with
  | some b => .ok b
  | none => .error .connErr

/-- The arity-error value `Err wrong number of arguments for '<CMD>'
command`. -/
def arityErr (name : String) : Bytes :=
  strBytes "Err wrong number of arguments for " ++ quo ++ strBytes name
    ++ quo ++ strBytes " command"

/-- The result of one command: response bytes plus the state after. -/
abbrev CmdResult := Except Abn (Bytes × HState)

end RedisRust

namespace RedisRust

/-- The `"PING"` arm of `execute_command`. -/
def pingCmd (st : HState) : CmdResult :=
  if st.subscribeMode then
    .ok (encode (.array [.str (strBytes "pong"), .str []]), st)
  else do
    let b ← simpleE (.str (strBytes "PONG"))
    .ok (b, st)

/-- The `"ECHO"` arm of `execute_command`. -/
def echoCmd (args : List RedisValue) (st : HState) : CmdResult :=
  if args.length ≠ 2 then
    .ok (encode (.error (arityErr "ECHO")), st)
  else do
    let v ← argE args 1
    .ok (encode v, st)

/-- The `usize → i64` cast applied to the parsed PX/EX amount
(wrapping at `2^63`). -/
def usizeAsI64 (n : Nat) : Int :=
  if n < 2 ^ 63 then (n : Int) else (n : Int) - 2 ^ 64

/-- The `"SET"` arm of `execute_command`: store a `StringRecord`,
with an absolute expiry when a `PX`/`EX` option follows (`now` is the
wall clock in milliseconds; `checked_add_signed` overflow is not
modelled — it needs an expiry beyond the representable calendar). -/
def setCmd (now : Int) (args : List RedisValue) (st : HState) : CmdResult :=
  if args.length < 3 then
    .ok (encode (.error (arityErr "SET")), st)
  else do
    let a1 ← argE args 1
    let key ← getStrE a1
    let value ← argE args 2
    let record ←
      if args.length > 4 then do
        let a3 ← argE args 3
        let s3 ← getStrE a3
        if upper s3 = strBytes "PX" then do
          let a4 ← argE args 4
          let s4 ← getStrE a4
          match parseU64 s4 with
          | none => .error Abn.connErr
          | some ms => .ok (StringRecord.mk value (some (now + usizeAsI64 ms)))
        else if upper s3 = strBytes "EX" then do
          let a4 ← argE args 4
          let s4 ← getStrE a4
          match parseU64 s4 with
          | none => .error Abn.connErr
          | some sec => .ok (StringRecord.mk value (some (now + 1000 * usizeAsI64 sec)))
        else .ok (StringRecord.new value)
      else .ok (StringRecord.new value)
    let b ← simpleE (.str (strBytes "OK"))
    .ok (b, { st with db := dbInsert st.db key (.string record) })

/-- The `"GET"` arm of `execute_command`: the stored value's encoding
when the record is a valid (unexpired) `StringRecord`, the nil bulk
string otherwise (absent key, expired record, or a record of another
variant). -/
def getCmd (now : Int) (args : List RedisValue) (st : HState) : CmdResult :=
  if args.length ≠ 2 then
    .ok (encode (.error (arityErr "GET")), st)
  else do
    let a1 ← argE args 1
    let key ← getStrE a1
    match st.db key with
    | some record =>
        match record.getStringRec with
        | some sr =>
            if sr.isValid now then .ok (encode sr.value, st)
            else .ok (encode .nullString, st)
        | none => .ok (encode .nullString, st)
    | none => .ok (encode .nullString, st)

/-- The `"SUBSCRIBE"` arm of `execute_command`. -/
def subscribeCmd (args : List RedisValue) (st : HState) : CmdResult :=
  if args.length ≠ 2 then
    .ok (encode (.error (arityErr "SUBSCRIBE")), st)
  else do
    let a1 ← argE args 1
    let channel ← getStrE a1
    let chans := match st.reg.channels channel with
      | some s => setAdd s st.id
      | none => [st.id]
    let subsNew := match st.reg.subscriptions st.id with
      | some s => setAdd s channel
      | none => [channel]
    let reg1 : Registry :=
      { channels := fun c => if c = channel then some chans else st.reg.channels c
        subscriptions := fun i => if i = st.id then some subsNew else st.reg.subscriptions i
        senders := st.reg.senders }
    match reg1.subscriptions st.id with
    | none => .error Abn.crash
    | some cur =>
        .ok (encode (.array [.str (strBytes "subscribe"), .str channel,
              .int cur.length]),
          { st with reg := reg1, subscribeMode := true })

/-- The send loop of the `"PUBLISH"` arm: look each subscriber's
mailbox up (`unwrap` panics when absent) and send (`?` propagates when
the mailbox is closed). -/
def sendAll (senders : Nat → Option Bool) : List Nat → Except Abn Unit
  | [] => .ok ()
  | s :: rest =>
      match senders s with
      | none => .error Abn.crash
      | some false => .error Abn.connErr
      | some true => sendAll senders rest

/-- The `"PUBLISH"` arm of `execute_command`. -/
def publishCmd (args : List RedisValue) (st : HState) : CmdResult :=
  if args.length ≠ 3 then
    .ok (encode (.error (arityErr "PUBLISH")), st)
  else do
    let a1 ← argE args 1
    let channel ← getStrE a1
    let a2 ← argE args 2
    let _message ← getStrE a2
    match st.reg.channels channel with
    | some subs => do
        let _ ← sendAll st.reg.senders subs
        .ok (encode (.int subs.length), st)
    | none => .ok (encode (.int 0), st)

/-- The `"UNSUBSCRIBE"` arm of `execute_command`: remove the pairing
from both maps (each only when its entry exists), then `unwrap` the
connection's subscription set to report its size — a connection that
never subscribed has no entry there, and the `unwrap` panics. -/
def unsubscribeCmd (args : List RedisValue) (st : HState) : CmdResult :=
  if args.length ≠ 2 then
    .ok (encode (.error (arityErr "UNSUBSCRIBE")), st)
  else do
    let a1 ← argE args 1
    let channel ← getStrE a1
    let chans1 : Bytes → Option (List Nat) := fun c =>
      if c = channel then (st.reg.channels channel).map (fun s => s.erase st.id)
      else st.reg.channels c
    let subs1 : Nat → Option (List Bytes) := fun i =>
      if i = st.id then (st.reg.subscriptions st.id).map (fun s => s.erase channel)
      else st.reg.subscriptions i
    let reg1 : Registry := { channels := chans1, subscriptions := subs1,
                             senders := st.reg.senders }
    match reg1.subscriptions st.id with
    | none => .error Abn.crash
    | some cur =>
        .ok (encode (.array [.str (strBytes "unsubscribe"), .str channel,
              .int cur.length]),
          { st with reg := reg1,
                    subscribeMode := if cur.length = 0 then false else st.subscribeMode })

/-- The push loop of RPUSH/LPUSH: push each remaining argument
(`get_string()?` propagates on a non-string argument). -/
def pushAll (push : ListRecord → Bytes → ListRecord) (r : ListRecord) :
    List RedisValue → Except Abn ListRecord
  | [] => .ok r
  | v :: vs => do
      let s ← getStrE v
      pushAll push (push r s) vs

/-- The values-collection loop of the absent-key RPUSH branch. -/
def collectStrs : List RedisValue → Except Abn (List Bytes)
  | [] => .ok []
  | v :: vs => do
      let s ← getStrE v
      let rest ← collectStrs vs
      .ok (s :: rest)

/-- The `"RPUSH"` arm of `execute_command`: on a key of another
variant it returns `Err(..)` (closing the connection). -/
def rpushCmd (args : List RedisValue) (st : HState) : CmdResult :=
  if args.length < 3 then
    .ok (encode (.error (arityErr "RPUSH")), st)
  else do
    let a1 ← argE args 1
    let name ← getStrE a1
    match st.db name with
    | some record =>
        match record.getList with
        | some lr => do
            let prev := lr.len
            let lr1 ← pushAll ListRecord.pushBack lr (args.drop 2)
            .ok (encode (.int (prev + (args.length - 2))),
              { st with db := dbInsert st.db name (.list lr1) })
        | none => .error Abn.connErr
    | none => do
        let vals ← collectStrs (args.drop 2)
        .ok (encode (.int (0 + (args.length - 2))),
          { st with db := dbInsert st.db name (.list (ListRecord.fromList vals)) })

/-- The `"LPUSH"` arm of `execute_command` (prepends each argument in
order; on an absent key the deque is built by `push_front`, so it holds
the arguments reversed). -/
def lpushCmd (args : List RedisValue) (st : HState) : CmdResult :=
  if args.length < 3 then
    .ok (encode (.error (arityErr "LPUSH")), st)
  else do
    let a1 ← argE args 1
    let name ← getStrE a1
    match st.db name with
    | some record =>
        match record.getList with
        | some lr => do
            let prev := lr.len
            let lr1 ← pushAll ListRecord.pushFront lr (args.drop 2)
            .ok (encode (.int (prev + (args.length - 2))),
              { st with db := dbInsert st.db name (.list lr1) })
        | none => .error Abn.connErr
    | none => do
        let vals ← collectStrs (args.drop 2)
        .ok (encode (.int (0 + (args.length - 2))),
          { st with db := dbInsert st.db name (.list (ListRecord.fromList vals.reverse)) })

/-- The `"LRANGE"` arm of `execute_command` (a key of another variant
is treated as an empty list). -/
def lrangeCmd (args : List RedisValue) (st : HState) : CmdResult :=
  if args.length ≠ 4 then
    .ok (encode (.error (arityErr "LRANGE")), st)
  else do
    let a1 ← argE args 1
    let name ← getStrE a1
    let a2 ← argE args 2
    let startStr ← getStrE a2
    let a3 ← argE args 3
    let stopStr ← getStrE a3
    match parseI64 startStr, parseI64 stopStr with
    | some start0, some stop0 =>
        let list : List Bytes := match st.db name with
          | some record =>
              match record.getList with
              | some lr => lr.list
              | none => []
          | none => []
        let len : Int := list.length
        let start1 : Int := if start0 < 0 then max (len + start0) 0 else start0
        let stop1 : Int := if stop0 < 0 then max (len + stop0) 0 else stop0
        let stop2 : Int := min stop1 (len - 1)
        let startU : Nat := (start1 % (2 ^ 64)).toNat
        let stopU : Nat := (stop2 % (2 ^ 64)).toNat
        let items : List RedisValue :=
          if startU < list.length ∧ startU ≤ stopU then
            ((list.drop startU).take (stopU - startU + 1)).map RedisValue.str
          else []
        .ok (encode (.array items), st)
    | _, _ => .error Abn.connErr

/-- The `"LLEN"` arm of `execute_command` (absent key or another
variant gives length 0). -/
def llenCmd (args : List RedisValue) (st : HState) : CmdResult :=
  if args.length ≠ 2 then
    .ok (encode (.error (arityErr "LLEN")), st)
  else do
    let a1 ← argE args 1
    let name ← getStrE a1
    let n : Nat := match st.db name with
      | some record =>
          match record.getList with
          | some lr => lr.len
          | none => 0
      | none => 0
    .ok (encode (.int n), st)

/-- The `"LPOP"` arm of `execute_command`: pop up to `count` elements
(1 when no count argument).  In the no-count branch the response is
`returned_items[0]` — indexing an empty vector when the list was empty
or absent, which panics. -/
def lpopCmd (args : List RedisValue) (st : HState) : CmdResult :=
  if args.length < 2 || args.length > 3 then
    .ok (encode (.error (arityErr "LPOP")), st)
  else do
    let a1 ← argE args 1
    let name ← getStrE a1
    let popAmount ←
      if args.length = 3 then do
        let a2 ← argE args 2
        let s2 ← getStrE a2
        match parseU64 s2 with
        | some n => Except.ok n
        | none => .error Abn.connErr
      else Except.ok 1
    let (returned, st1) :=
      match st.db name with
      | some record =>
          match record.getList with
          | some lr =>
              (lr.list.take popAmount,
                { st with db := (dbInsert st.db name
                    (.list ⟨lr.list.drop popAmount, lr.waiters⟩)) })
          | none => ([], st)
      | none => ([], st)
    let items := returned.map RedisValue.str
    if popAmount = 1 then
      match items.get? 0 with
      | some v => .ok (encode v, st1)
      | none => .error Abn.crash
    else .ok (encode (.array items), st1)

/-- The `"BLPOP"` arm of `execute_command`: immediate pop when the
list has an element; otherwise the source subscribes a waiter and
suspends — outside this sequential model (`blocked`).  A key of
another variant returns `Err(..)`. -/
def blpopCmd (args : List RedisValue) (st : HState) : CmdResult :=
  if args.length ≠ 3 then
    .ok (encode (.error (arityErr "BLPOP")), st)
  else do
    let a1 ← argE args 1
    let name ← getStrE a1
    let a2 ← argE args 2
    let t ← getStrE a2
    if parseF64ok t then
      match st.db name with
      | none => .error Abn.blocked
      | some record =>
          match record.getList with
          | none => .error Abn.connErr
          | some lr =>
              if lr.isEmpty then .error Abn.blocked
              else
                match lr.popFront with
                | (some v, lr1) =>
                    .ok (encode (.array [.str name, .str v]),
                      { st with db := dbInsert st.db name (.list lr1) })
                | (none, _) => .error Abn.crash
    else .error Abn.connErr

/-- The `"TYPE"` arm of `execute_command`. -/
def typeCmd (args : List RedisValue) (st : HState) : CmdResult :=
  if args.length ≠ 2 then
    .ok (encode (.error (arityErr "TYPE")), st)
  else do
    let a1 ← argE args 1
    let name ← getStrE a1
    match st.db name with
    | some record => do
        let b ← simpleE (.str record.getType)
        .ok (b, st)
    | none => do
        let b ← simpleE (.str (strBytes "none"))
        .ok (b, st)

end RedisRust

namespace RedisRust

/-- A non-empty all-digit byte string (`\d+`). -/
def isDigits (l : Bytes) : Bool := !l.isEmpty && l.all isDigit

/-- The part of an id before the first `-` (first item of
`split('-')`). -/
def firstDashPart (l : Bytes) : Bytes := l.takeWhile (fun b => b ≠ 45)

/-- The part between the first and second `-` (second item of
`split('-')`, `none` when there is no `-`). -/
def secondDashPart (l : Bytes) : Option Bytes :=
  if 45 ∈ l then
    some ((l.drop ((firstDashPart l).length + 1)).takeWhile (fun b => b ≠ 45))
  else none

/-- One side of an XADD id: `\d+` or `*`. -/
def xaddPartOk (l : Bytes) : Bool := isDigits l || l = [42]

/-- The XADD id regex `^((\d+|\*)-(\d+|\*)|\*)$`. -/
def xaddIdOk (l : Bytes) : Bool :=
  l = [42] ||
    (45 ∈ l &&
      (let a := firstDashPart l
       let rest := l.drop (a.length + 1)
       xaddPartOk a && xaddPartOk rest && !(45 ∈ rest)))

/-- The XRANGE bound regex `^\d+(-\d+)?$`. -/
def xrangeIdOk (l : Bytes) : Bool :=
  isDigits l ||
    (45 ∈ l && isDigits (firstDashPart l) &&
      isDigits (l.drop ((firstDashPart l).length + 1)))

/-- The XREAD id regex `^\d+-\d+$`. -/
def xreadIdOk (l : Bytes) : Bool :=
  45 ∈ l && isDigits (firstDashPart l) &&
    isDigits (l.drop ((firstDashPart l).length + 1))

/-- `id.split('-')` with both parts taken by `next().unwrap()` and
parsed by `i64::from_str_radix(..).unwrap()`: a missing second part or
an unparsable part panics. -/
def idPartsI64 (id : Bytes) : Except Abn (Int × Int) :=
  match secondDashPart id with
  | none => .error Abn.crash
  | some b =>
      match parseI64 (firstDashPart id), parseI64 b with
      | some x, some y => .ok (x, y)
      | _, _ => .error Abn.crash

/-- Like `idPartsI64` but with `usize::from_str_radix` (XRANGE/XREAD
entry-id parsing). -/
def idPartsUsize (id : Bytes) : Except Abn (Nat × Nat) :=
  match secondDashPart id with
  | none => .error Abn.crash
  | some b =>
      match parseU64 (firstDashPart id), parseU64 b with
      | some x, some y => .ok (x, y)
      | _, _ => .error Abn.crash

/-- XADD auto-sequencing against an existing stream record (lines
499-505 of client_handler.rs): same milliseconds as the last entry
continues its sequence, otherwise the sequence restarts at 0. -/
def xaddSeqExisting (lastMs lastSeq ms : Int) : Int :=
  if lastMs = ms then lastSeq + 1 else 0

/-- XADD auto-sequencing when the key is absent (lines 521-527):
sequence 1 for millisecond 0 (forbidding `0-0`), otherwise 0. -/
def xaddSeqNew (ms : Int) : Int := if ms = 0 then 1 else 0

/-- The XADD monotonicity rejection test (line 508): the candidate id
must strictly exceed the last id. -/
def xaddRejects (lastMs lastSeq ms seq : Int) : Bool :=
  decide (lastMs > ms) || (decide (lastMs = ms) && decide (lastSeq ≥ seq))

/-- `HashMap::insert` on an association list. -/
def assocSet (m : List (Bytes × Bytes)) (k v : Bytes) : List (Bytes × Bytes) :=
  match m with
  | [] => [(k, v)]
  | (k0, v0) :: rest =>
      if k0 = k then (k0, v) :: rest else (k0, v0) :: assocSet rest k v

/-- The field-pair collection loop of XADD (lines 479-483): arguments
from index 3 taken pairwise into the entry's map (`HashMap::insert`
overwrites an existing key). -/
def kvBuild (m : List (Bytes × Bytes)) : List RedisValue →
    Except Abn (List (Bytes × Bytes))
  | [] => .ok m
  | [_] => .error Abn.crash
  | k :: v :: rest => do
      let kb ← getStrE k
      let vb ← getStrE v
      kvBuild (assocSet m kb vb) rest

/-- The `"XADD"` arm of `execute_command`. -/
def xaddCmd (now : Int) (args : List RedisValue) (st : HState) : CmdResult :=
  if args.length < 5 || args.length % 2 ≠ 1 then
    .ok (encode (.error (arityErr "XADD")), st)
  else do
    let a1 ← argE args 1
    let streamName ← getStrE a1
    let a2 ← argE args 2
    let entryId0 ← getStrE a2
    if !xaddIdOk entryId0 then .error Abn.connErr
    else do
      let entryId1 := if entryId0 = [42] then strBytes "*-*" else entryId0
      let msStr := firstDashPart entryId1
      let seqStr ← (match secondDashPart entryId1 with
        | some b => Except.ok b
        | none => Except.error Abn.crash)
      let milliseconds := (parseI64 msStr).getD (-1)
      let sequence := (parseI64 seqStr).getD (-1)
      let kv ← kvBuild [] (args.drop 3)
      if milliseconds = 0 ∧ sequence = 0 then
        .ok (encode (.error (strBytes
          "ERR The ID specified in XADD must be greater than 0-0")), st)
      else
        match st.db streamName with
        | some record =>
            match record.getStream with
            | some sr => do
                let lastId ← idPartsI64 sr.peekLast.id
                let ms := if msStr = [42] then now else milliseconds
                let seq := if seqStr = [42] then xaddSeqExisting lastId.1 lastId.2 ms
                  else sequence
                let newId := intToDec ms ++ [45] ++ intToDec seq
                if xaddRejects lastId.1 lastId.2 ms seq then
                  .ok (encode (.error (strBytes
                    "ERR The ID specified in XADD is equal or smaller than the target stream top item")), st)
                else
                  .ok (encode (.str newId),
                    { st with db := (dbInsert st.db streamName
                        (.stream (sr.push ⟨newId, kv⟩))) })
            | none => .ok (encode (.str entryId1), st)
        | none => do
            let ms := if msStr = [42] then now else milliseconds
            let seq := if seqStr = [42] then xaddSeqNew ms else sequence
            let newId := intToDec ms ++ [45] ++ intToDec seq
            .ok (encode (.str newId),
              { st with db := (dbInsert st.db streamName
                  (.stream (StreamRecord.new.push ⟨newId, kv⟩))) })

/-- A stream entry as XRANGE/XREAD encode it:
`[id, [f1, v1, f2, v2, …]]`. -/
def flatKv : List (Bytes × Bytes) → List RedisValue
  | [] => []
  | (k, v) :: rest => .str k :: .str v :: flatKv rest

/-- See `flatKv`. -/
def entryVal (e : StreamEntry) : RedisValue :=
  .array [.str e.id, .array (flatKv e.kv)]

/-- The XRANGE entry loop: skip entries below the lower bound,
stop at the first entry above the upper bound, keep the rest.
Entry ids are re-parsed with `unwrap`s that panic on malformed ids. -/
def xrangeFilter (loMs loSeq hiMs hiSeq : Nat) :
    List StreamEntry → Except Abn (List RedisValue)
  | [] => .ok []
  | e :: rest => do
      let p ← idPartsUsize e.id
      if p.1 < loMs ∨ (p.1 = loMs ∧ p.2 < loSeq) then
        xrangeFilter loMs loSeq hiMs hiSeq rest
      else if p.1 > hiMs ∨ (p.1 = hiMs ∧ p.2 > hiSeq) then .ok []
      else do
        let tail ← xrangeFilter loMs loSeq hiMs hiSeq rest
        .ok (entryVal e :: tail)

/-- Parse one XRANGE bound: `ms` or `ms-seq`, with the given default
sequence; `from_str_radix(..).unwrap()` panics when unparsable. -/
def xrangeBound (l : Bytes) (defSeq : Nat) : Except Abn (Nat × Nat) :=
  if 45 ∈ l then
    match parseU64 (firstDashPart l),
        parseU64 ((l.drop ((firstDashPart l).length + 1)).takeWhile (fun b => b ≠ 45)) with
    | some x, some y => .ok (x, y)
    | _, _ => .error Abn.crash
  else
    match parseU64 l with
    | some x => .ok (x, defSeq)
    | none => .error Abn.crash

/-- The `"XRANGE"` arm of `execute_command` (absent key or another
variant yields an empty array). -/
def xrangeCmd (args : List RedisValue) (st : HState) : CmdResult :=
  if args.length ≠ 4 then
    .ok (encode (.error (arityErr "XRANGE")), st)
  else do
    let a1 ← argE args 1
    let name ← getStrE a1
    let a2 ← argE args 2
    let loRaw ← getStrE a2
    let a3 ← argE args 3
    let hiRaw ← getStrE a3
    let lo := if loRaw = strBytes "-" then strBytes "0" else loRaw
    let hi := if hiRaw = strBytes "+" then natToDec (2 ^ 64 - 1) else hiRaw
    if !xrangeIdOk lo then .error Abn.connErr
    else if !xrangeIdOk hi then .error Abn.connErr
    else do
      let loB ← xrangeBound lo 0
      let hiB ← xrangeBound hi (2 ^ 64 - 1)
      let items ← (match st.db name with
        | some record =>
            match record.getStream with
            | some sr => xrangeFilter loB.1 loB.2 hiB.1 hiB.2 sr.entries
            | none => Except.ok []
        | none => Except.ok [])
      .ok (encode (.array items), st)

/-- The XREAD entry loop for one stream: keep entries with id strictly
greater than the supplied bound (no early exit). -/
def xreadFilter (ms seq : Nat) : List StreamEntry → Except Abn (List RedisValue)
  | [] => .ok []
  | e :: rest => do
      let p ← idPartsUsize e.id
      if p.1 < ms ∨ (p.1 = ms ∧ p.2 ≤ seq) then xreadFilter ms seq rest
      else do
        let tail ← xreadFilter ms seq rest
        .ok (entryVal e :: tail)

/-- One iteration of the XREAD stream loop: resolve `$` to the
stream's last id, validate the id, collect the strictly-newer entries,
and produce `[key, [entries…]]`.  With BLOCK and no entries the source
subscribes a waiter and suspends (`blocked`). -/
def xreadItem (args : List RedisValue) (blockArgs : Nat) (isBlocked : Bool)
    (st : HState) (i : Nat) : Except Abn RedisValue := do
  let aN ← argE args (2 + i + blockArgs)
  let name ← getStrE aN
  let aI ← argE args ((args.length - blockArgs) / 2 + 1 + i + blockArgs)
  let idRaw ← getStrE aI
  let entryId := if idRaw = strBytes "$" then
      (match st.db name with
       | some record =>
           match record.getStream with
           | some sr => sr.peekLast.id
           | none => idRaw
       | none => idRaw)
    else idRaw
  if !xreadIdOk entryId then .error Abn.connErr
  else do
    let p ← idPartsUsize entryId
    let entries ← (match st.db name with
      | some record =>
          match record.getStream with
          | some sr => xreadFilter p.1 p.2 sr.entries
          | none => Except.ok []
      | none => Except.ok [])
    if isBlocked ∧ entries.isEmpty then .error Abn.blocked
    else .ok (.array [.str name, .array entries])

/-- The XREAD stream loop over the stream indices. -/
def xreadLoop (args : List RedisValue) (blockArgs : Nat) (isBlocked : Bool)
    (st : HState) : List Nat → Except Abn (List RedisValue)
  | [] => .ok []
  | i :: rest => do
      let v ← xreadItem args blockArgs isBlocked st i
      let vs ← xreadLoop args blockArgs isBlocked st rest
      .ok (v :: vs)

/-- The `"XREAD"` arm of `execute_command`.  The arity-error message
names XRANGE, as in the source.  Every stream's `[key, [entries…]]`
pair is pushed onto the response unconditionally, so the non-blocking
response always has one element per requested stream. -/
def xreadCmd (args : List RedisValue) (st : HState) : CmdResult :=
  if args.length < 4 then
    .ok (encode (.error (arityErr "XRANGE")), st)
  else do
    let a1 ← argE args 1
    let m ← getStrE a1
    let mode ←
      (if lower m = strBytes "block" then do
        let a2 ← argE args 2
        let t ← getStrE a2
        match parseU64 t with
        | some _ => Except.ok (true, 2)
        | none => Except.error Abn.connErr
      else if lower m = strBytes "streams" then Except.ok (false, 0)
      else Except.error Abn.connErr)
    let count := (args.length - mode.2 - 2) / 2
    let items ← xreadLoop args mode.2 mode.1 st (List.range count)
    .ok (encode (.array items), st)

/-- The `"INCR"` arm of `execute_command`: a non-string record matches
no branch and the response is the initial `new_value = 0`; an absent
key stores `"1"`; a non-integer string value produces an error value.
`number + 1` at the top of the `i64` range overflows (a debug-build
panic, modelled as `crash`). -/
def incrCmd (args : List RedisValue) (st : HState) : CmdResult :=
  if args.length ≠ 2 then
    .ok (encode (.error (arityErr "INCR")), st)
  else do
    let a1 ← argE args 1
    let key ← getStrE a1
    match st.db key with
    | some (.string sr) => do
        let s ← getStrE sr.value
        match parseI64 s with
        | some number =>
            if number + 1 < 2 ^ 63 then
              .ok (encode (.int (number + 1)),
                { st with db := (dbInsert st.db key
                    (.string (sr.setValue (.str (intToDec (number + 1)))))) })
            else .error Abn.crash
        | none =>
            .ok (encode (.error (strBytes
              "ERR value is not an integer or out of range")), st)
    | some _ => .ok (encode (.int 0), st)
    | none =>
        .ok (encode (.int 1),
          { st with db := (dbInsert st.db key
              (.string (StringRecord.new (.str (strBytes "1"))))) })

/-- The `"MULTI"` arm of `execute_command`. -/
def multiCmd (args : List RedisValue) (st : HState) : CmdResult :=
  if args.length ≠ 1 then
    .ok (encode (.error (arityErr "MULTI")), st)
  else do
    let b ← simpleE (.str (strBytes "OK"))
    .ok (b, { st with multiMode := true })

/-- The fall-through arm of `execute_command`:
`Err unknown command '<name>'`. -/
def unknownCmd (c : Bytes) (st : HState) : CmdResult :=
  .ok (encode (.error (strBytes "Err unknown command " ++ quo ++ c ++ quo)), st)

/-- `ClientHandler::execute_command`: dispatch on the (upper-cased)
command name in source order. -/
def executeCommand (now : Int) (cmd : Bytes) (args : List RedisValue)
    (st : HState) : CmdResult :=
  if cmd = strBytes "PING" then pingCmd st
  else if cmd = strBytes "ECHO" then echoCmd args st
  else if cmd = strBytes "SET" then setCmd now args st
  else if cmd = strBytes "GET" then getCmd now args st
  else if cmd = strBytes "SUBSCRIBE" then subscribeCmd args st
  else if cmd = strBytes "PUBLISH" then publishCmd args st
  else if cmd = strBytes "UNSUBSCRIBE" then unsubscribeCmd args st
  else if cmd = strBytes "RPUSH" then rpushCmd args st
  else if cmd = strBytes "LRANGE" then lrangeCmd args st
  else if cmd = strBytes "LPUSH" then lpushCmd args st
  else if cmd = strBytes "LLEN" then llenCmd args st
  else if cmd = strBytes "LPOP" then lpopCmd args st
  else if cmd = strBytes "BLPOP" then blpopCmd args st
  else if cmd = strBytes "TYPE" then typeCmd args st
  else if cmd = strBytes "XADD" then xaddCmd now args st
  else if cmd = strBytes "XRANGE" then xrangeCmd args st
  else if cmd = strBytes "XREAD" then xreadCmd args st
  else if cmd = strBytes "INCR" then incrCmd args st
  else if cmd = strBytes "MULTI" then multiCmd args st
  else unknownCmd cmd st

/-- `TRANSACTION_COMMANDS` from client_handler.rs line 10. -/
def transactionCommands : List Bytes :=
  [strBytes "MULTI", strBytes "EXEC", strBytes "DISCARD"]

/-- `SUBSCRIBE_MODE_COMMANDS` from client_handler.rs line 9. -/
def subscribeModeCommands : List Bytes :=
  [strBytes "SUBSCRIBE", strBytes "UNSUBSCRIBE", strBytes "PSUBSCRIBE",
   strBytes "PUNSUBSCRIBE", strBytes "PING", strBytes "QUIT"]

/-- The queued-command loop of `exec_queued`: each command name is
re-read from the stored argument array (`queued_command[0]`, without
upper-casing) and executed; responses are collected in order. -/
def execList (now : Int) : List (List RedisValue) → HState →
    Except Abn (List Bytes × HState)
  | [], st => .ok ([], st)
  | c :: cs, st => do
      let h ← argE c 0
      let cb ← getStrE h
      let r ← executeCommand now cb c st
      let rest ← execList now cs r.2
      .ok (r.1 :: rest.1, rest.2)

/-- `ClientHandler::exec_queued`: without multi-mode, the EXEC-without-
MULTI error; otherwise run the queued commands in order, respond with
`*<n>\r\n` followed by the concatenated responses, and clear
`multi_mode` — the queued-commands buffer is left as it was. -/
def execQueued (now : Int) (st : HState) : CmdResult :=
  if st.multiMode then do
    let r ← execList now st.queued st
    .ok ([42] ++ natToDec r.1.length ++ crlf ++ r.1.flatten,
      { r.2 with multiMode := false })
  else .ok (encode (.error (strBytes "ERR EXEC without MULTI")), st)

/-- `ClientHandler::handle_commands`: in multi-mode every command
outside `TRANSACTION_COMMANDS` is queued with response `+QUEUED\r\n`;
`EXEC` runs `exec_queued`; everything else (including `DISCARD`,
which has no arm) goes to `execute_command`. -/
def handleCommands (now : Int) (cmd : Bytes) (args : List RedisValue)
    (st : HState) : CmdResult :=
  if st.multiMode ∧ ¬(cmd ∈ transactionCommands) then do
    let b ← simpleE (.str (strBytes "QUEUED"))
    .ok (b, { st with queued := st.queued ++ [args] })
  else if cmd = strBytes "EXEC" then execQueued now st
  else executeCommand now cmd args st

end RedisRust

namespace RedisRust

/-- State of `RedisParser` (parser.rs): the 1024-byte buffer (held as
the written prefix; unwritten positions read as the zeroes the array is
initialised with), the fill position, and the byte chunks the TCP
stream will hand to successive `read` calls. -/
structure ParserSt where
  arr : Bytes
  pos : Nat
  input : List Bytes

/-- Read index `i` of the physical buffer (zero when never written). -/
def arrGet (arr : Bytes) (i : Nat) : Nat := arr.getD i 0

/-- The first `n` bytes of the physical buffer (`buffer[..n]`),
zero-padded past the written prefix. -/
def arrTake (arr : Bytes) (n : Nat) : Bytes :=
  (List.range n).map (fun i => arrGet arr i)

/-- Overwrite the buffer at `off` with `data`
(`buffer[off..off+len].copy_from_slice(data)`). -/
def arrWrite (arr : Bytes) (off : Nat) (data : Bytes) : Bytes :=
  arrTake arr off ++ data ++ arr.drop (off + data.length)

/-- One `stream.read(&mut buffer[pos..])` call: the next chunk is
written at the fill position; an exhausted or closed stream (`nread ==
0`) is a disconnect error. -/
def readStep (st : ParserSt) : Option ParserSt :=
  match st.input with
  | [] => none
  | c :: rest =>
      if c.isEmpty then none
      else some ⟨arrWrite st.arr st.pos c, st.pos + c.length, rest⟩

/-- `stream.read_exact(&mut buffer[..1])`: exactly one byte is taken
from the stream, the rest of its chunk stays pending. -/
def readExact1 (st : ParserSt) : Option ParserSt :=
  match st.input with
  | [] => none
  | c :: rest =>
      match c with
      | [] => none
      | b :: bs =>
          some ⟨arrWrite st.arr 0 [b], 1, if bs.isEmpty then rest else bs :: rest⟩

/-- `RedisParser::read_blob`: scan the filled part of the buffer for
`\r\n`, reading more bytes while absent; on success return the blob
(everything through the `\r\n`) and shift the remainder to the front
(`copy_within(p+2..position, 0)`).  `fuel` bounds the loop (the `\r`
not followed by `\n` case loops without reading, forever). -/
def readBlob : Nat → ParserSt → Option (Bytes × ParserSt)
  | 0, _ => none
  | fuel + 1, st =>
      let filled := arrTake st.arr st.pos
      match filled.findIdx? (fun b => b = 13) with
      | none =>
          match readStep st with
          | some st1 => readBlob fuel st1
          | none => none
      | some p =>
          if p + 1 ≥ st.pos then
            match readStep st with
            | some st1 => readBlob fuel st1
            | none => none
          else if arrGet st.arr (p + 1) ≠ 10 then
            readBlob fuel st
          else
            some (arrTake st.arr (p + 2),
              ⟨arrWrite st.arr 0 ((arrTake st.arr st.pos).drop (p + 2)),
               st.pos - (p + 2), st.input⟩)

/-- `RedisParser::bulk_string` (parser.rs lines 94-101): read the
header line, parse the length `n` with `read_uint`, then take
`buffer[..n]` as the payload — without waiting for those bytes to
arrive — and discard `n + 2` bytes from the front.  When fewer than
`n + 2` bytes are buffered, `self.position - (n + 2)` underflows
`usize` and panics (`none`).  The payload bytes come from the physical
buffer, so when the payload has not arrived they are stale bytes. -/
def bulkStringChunked (fuel : Nat) (st : ParserSt) :
    Option (RedisValue × ParserSt) :=
  match readBlob fuel st with
  | none => none
  | some (blob, st1) =>
      match readUintM (blob.drop 1) with
      | none => none
      | some n =>
          if st1.pos < n + 2 then none
          else
            some (.str (arrTake st1.arr n),
              ⟨st1.arr.drop (n + 2), st1.pos - (n + 2), st1.input⟩)

/-- `RedisParser::simple_string` over the chunked stream. -/
def simpleStringChunked (fuel : Nat) (st : ParserSt) :
    Option (RedisValue × ParserSt) :=
  match readBlob fuel st with
  | none => none
  | some (blob, st1) => some (.str (lineContent blob), st1)

/-- `RedisParser::integer` over the chunked stream. -/
def integerChunked (fuel : Nat) (st : ParserSt) :
    Option (RedisValue × ParserSt) :=
  match readBlob fuel st with
  | none => none
  | some (blob, st1) =>
      match parseI64 (lineContent blob) with
      | some i => some (.int i, st1)
      | none => none

/-- The element loop of `RedisParser::array` over the chunked stream,
parametrised by the element parser. -/
def readManyChunkedF (f : ParserSt → Option (RedisValue × ParserSt)) :
    Nat → ParserSt → Option (List RedisValue × ParserSt)
  | 0, st => some ([], st)
  | n + 1, st =>
      match f st with
      | some (v, st1) =>
          match readManyChunkedF f n st1 with
          | some (vs, st2) => some (v :: vs, st2)
          | none => none
      | none => none

/-- `RedisParser::read_value` over the chunked stream: when the buffer
is empty, read exactly one byte; dispatch on `buffer[0]`. -/
def readValueChunked : Nat → ParserSt → Option (RedisValue × ParserSt)
  | 0, _ => none
  | fuel + 1, st =>
      let st0 := if st.pos = 0 then readExact1 st else some st
      match st0 with
      | none => none
      | some st1 =>
          match arrGet st1.arr 0 with
          | 43 => simpleStringChunked (fuel + 1) st1
          | 42 =>
              match readBlob (fuel + 1) st1 with
              | none => none
              | some (blob, st2) =>
                  match readUintM (blob.drop 1) with
                  | none => none
                  | some n =>
                      match readManyChunkedF (fun s => readValueChunked fuel s) n st2 with
                      | some (vs, st3) => some (.array vs, st3)
                      | none => none
          | 36 => bulkStringChunked (fuel + 1) st1
          | 58 => integerChunked (fuel + 1) st1
          | _ => none

end RedisRust

namespace RedisRust

theorem decDigits_append (ds : Bytes) (d : Nat) :
    decDigits (ds ++ [d]) = 10 * decDigits ds + (d - 48) := by
  simp [decDigits, List.foldl_append]

theorem decDigits_digits (n : Nat) :
    decDigits ((Nat.digits 10 n).reverse.map (fun d => d + 48)) = n := by
  induction n using Nat.strong_induction_on with
  | _ n ih =>
    rcases Nat.eq_zero_or_pos n with h0 | hpos
    · subst h0; simp [decDigits]
    · have hd : Nat.digits 10 n = n % 10 :: Nat.digits 10 (n / 10) :=
        Nat.digits_def' (by norm_num) hpos
      have hdiv : n / 10 < n := Nat.div_lt_self hpos (by norm_num)
      rw [hd]
      simp only [List.reverse_cons, List.map_append, List.map_cons, List.map_nil]
      rw [decDigits_append, ih (n / 10) hdiv]
      omega

theorem decDigits_natToDec (n : Nat) : decDigits (natToDec n) = n := by
  unfold natToDec
  split
  · simp [decDigits]; omega
  · exact decDigits_digits n

theorem natToDec_digit {n d : Nat} (h : d ∈ natToDec n) : 48 ≤ d ∧ d ≤ 57 := by
  unfold natToDec at h
  split at h
  · simp at h; omega
  · simp only [List.mem_map, List.mem_reverse] at h
    obtain ⟨x, hx, rfl⟩ := h
    have := Nat.digits_lt_base (by norm_num) hx
    omega

theorem natToDec_isDigit {n d : Nat} (h : d ∈ natToDec n) : isDigit d = true := by
  have := natToDec_digit h
  simp [isDigit]; omega

theorem natToDec_ne_nil (n : Nat) : natToDec n ≠ [] := by
  unfold natToDec
  split
  · simp
  · rename_i h
    have hne : Nat.digits 10 n ≠ [] := Nat.digits_ne_nil_iff_ne_zero.mpr h
    simpa using hne

theorem intToDec_bytes {i : Int} {d : Nat} (h : d ∈ intToDec i) :
    d = 45 ∨ (48 ≤ d ∧ d ≤ 57) := by
  unfold intToDec at h
  split at h
  · rcases List.mem_cons.mp h with h1 | h1
    · left; exact h1
    · right; exact natToDec_digit h1
  · right; exact natToDec_digit h

theorem takeWhile_all_append {p : Nat → Bool} :
    ∀ (ds : Bytes) (c : Nat) (rest : Bytes), (∀ d ∈ ds, p d = true) →
      p c = false →
      (ds ++ c :: rest).takeWhile p = ds ∧ (ds ++ c :: rest).dropWhile p = c :: rest := by
  intro ds
  induction ds with
  | nil => intro c rest _ hc; simp [List.takeWhile, List.dropWhile, hc]
  | cons d ds ih =>
      intro c rest hall hc
      have hd : p d = true := hall d (by simp)
      have ihr := ih c rest (fun x hx => hall x (by simp [hx])) hc
      simp [List.takeWhile, List.dropWhile, hd, ihr.1, ihr.2]

theorem readUintM_natToDec (n : Nat) (rest : Bytes) (hn : n < 2 ^ 64) :
    readUintM (natToDec n ++ 13 :: rest) = some n := by
  have h := (takeWhile_all_append (p := isDigit) (natToDec n) 13 rest
    (fun d hd => natToDec_isDigit hd) (by simp [isDigit])).1
  have hne : (natToDec n).isEmpty = false := by
    simp [List.isEmpty_iff, natToDec_ne_nil n]
  simp only [readUintM, h, hne, Bool.false_eq_true, if_false, decDigits_natToDec]
  rw [if_pos hn]

theorem takeLine_app : ∀ (content : Bytes) (rest : Bytes), (13 ∉ content) →
    takeLine (content ++ 13 :: 10 :: rest) = some (content ++ [13, 10], rest) := by
  intro content
  induction content with
  | nil => intro rest _; simp [takeLine]
  | cons b bs ih =>
      intro rest hmem
      have hb : ¬(b = 13) := by intro h; exact hmem (by simp [h])
      have hbs : 13 ∉ bs := fun h => hmem (by simp [h])
      have hstep : (b :: bs) ++ 13 :: 10 :: rest = b :: (bs ++ 13 :: 10 :: rest) := rfl
      rw [hstep]
      unfold takeLine
      rw [if_neg hb, ih rest hbs]
      simp

theorem lineContent_app (b : Nat) (content : Bytes) :
    lineContent ((b :: content) ++ [13, 10]) = content := by
  unfold lineContent
  have : (b :: content) ++ [13, 10] = b :: ((content ++ [13]) ++ [10]) := by simp
  rw [this]
  simp [List.dropLast_concat]

theorem parseI64_intToDec (i : Int) (hlo : -(2 ^ 63) ≤ i) (hhi : i < 2 ^ 63) :
    parseI64 (intToDec i) = some i := by
  by_cases hneg : i < 0
  · have : intToDec i = 45 :: natToDec i.natAbs := by simp [intToDec, hneg]
    rw [this]
    have habs : i.natAbs ≤ 2 ^ 63 := by omega
    have hne : (natToDec i.natAbs).isEmpty = false := by
      simp [List.isEmpty_iff, natToDec_ne_nil]
    have hall : (natToDec i.natAbs).all isDigit = true := by
      simp only [List.all_eq_true]
      intro d hd; exact natToDec_isDigit hd
    unfold parseI64
    simp only [List.headD_cons, List.drop_one, List.tail_cons]
    rw [if_pos trivial, if_neg (by simp [hne, hall]), decDigits_natToDec, if_pos habs]
    congr 1
    omega
  · push_neg at hneg
    have : intToDec i = natToDec i.toNat := by simp [intToDec]; omega
    rw [this]
    have hhead : (natToDec i.toNat).headD 0 ≠ 45 ∧ (natToDec i.toNat).headD 0 ≠ 43 := by
      rcases hx : natToDec i.toNat with _ | ⟨d, ds⟩
      · exact absurd hx (natToDec_ne_nil _)
      · have hd : d ∈ natToDec i.toNat := by rw [hx]; simp
        have := natToDec_digit hd
        simp [hx]; omega
    have hne : (natToDec i.toNat).isEmpty = false := by
      simp [List.isEmpty_iff, natToDec_ne_nil]
    have hall : (natToDec i.toNat).all isDigit = true := by
      simp only [List.all_eq_true]
      intro d hd; exact natToDec_isDigit hd
    unfold parseI64
    rw [if_neg hhead.1, if_neg hhead.2,
      if_neg (by simp [hne, hall]), decDigits_natToDec, if_pos (by omega)]
    congr 1
    omega

end RedisRust

namespace RedisRust

theorem depth_pos (v : RedisValue) : 1 ≤ depth v := by
  cases v <;> simp [depth]

theorem depth_mem : ∀ (vs : List RedisValue) (v : RedisValue), v ∈ vs →
    depth v ≤ depthList vs := by
  intro vs
  induction vs with
  | nil => intro v h; cases h
  | cons w ws ih =>
      intro v h
      rcases List.mem_cons.mp h with rfl | h1
      · simp [depthList]
      · have h2 := ih v h1
        simp [depthList]
        omega

theorem goodList_mem : ∀ (vs : List RedisValue) (v : RedisValue), v ∈ vs →
    goodList vs = true → good v = true := by
  intro vs
  induction vs with
  | nil => intro v h; cases h
  | cons w ws ih =>
      intro v h hg
      have hg2 := hg
      simp only [goodList, Bool.and_eq_true] at hg2
      rcases List.mem_cons.mp h with rfl | h1
      · exact hg2.1
      · exact ih v h1 hg2.2

theorem decode_encode : ∀ (fuel : Nat) (v : RedisValue) (rest : Bytes),
    good v = true → depth v ≤ fuel →
    decodeValue fuel (encode v ++ rest) = some (v, rest) := by
  intro fuel
  induction fuel with
  | zero =>
      intro v rest _ hd
      have := depth_pos v
      omega
  | succ fuel ih =>
      intro v rest hg hd
      cases v with
      | str s =>
          have hlen : s.length < 2 ^ 64 := by simpa [good] using hg
          have h13 : (13 : Nat) ∉ 36 :: natToDec s.length := by
            intro hm
            rcases List.mem_cons.mp hm with h | h
            · exact absurd h (by norm_num)
            · have := natToDec_digit h; omega
          have ht := takeLine_app (36 :: natToDec s.length) (s ++ 13 :: 10 :: rest) h13
          simp only [List.cons_append] at ht
          have hu := readUintM_natToDec s.length [10] hlen
          have henc : encode (.str s) ++ rest
              = 36 :: (natToDec s.length ++ 13 :: 10 :: (s ++ 13 :: 10 :: rest)) := by
            simp [encode, crlf]
          rw [henc]
          simp only [decodeValue, List.isEmpty_cons, List.headD_cons]
          norm_num
          have hlen2 : s.length + 2 ≤ (s ++ 13 :: 10 :: rest).length := by
            simp [List.length_append]
          have htake : (s ++ 13 :: 10 :: rest).take s.length = s :=
            List.take_left s (13 :: 10 :: rest)
          have hdrop : (s ++ 13 :: 10 :: rest).drop (s.length + 2) = rest := by
            have h2 : s ++ 13 :: 10 :: rest = (s ++ [13, 10]) ++ rest := by simp
            rw [h2]
            exact List.drop_left' (by simp)
          rw [ht]
          simp only [List.tail_cons, hu]
          rw [if_pos hlen2, htake, hdrop]
      | int i =>
          have hb : -(2 ^ 63) ≤ i ∧ i < 2 ^ 63 := by
            have := hg
            simp only [good, Bool.and_eq_true, decide_eq_true_eq] at this
            exact this
          have h13 : (13 : Nat) ∉ 58 :: intToDec i := by
            intro hm
            rcases List.mem_cons.mp hm with h | h
            · exact absurd h (by norm_num)
            · rcases intToDec_bytes h with h1 | h1 <;> omega
          have ht := takeLine_app (58 :: intToDec i) rest h13
          simp only [List.cons_append] at ht
          have henc : encode (.int i) ++ rest
              = 58 :: (intToDec i ++ 13 :: 10 :: rest) := by
            simp [encode, crlf]
          rw [henc]
          simp only [decodeValue, List.isEmpty_cons, List.headD_cons]
          norm_num
          rw [ht]
          have hc : lineContent (58 :: (intToDec i ++ [13, 10])) = intToDec i := by
            have : (58 : Nat) :: (intToDec i ++ [13, 10])
                = (58 :: intToDec i) ++ [13, 10] := by simp
            rw [this]
            exact lineContent_app 58 (intToDec i)
          simp only [hc, parseI64_intToDec i hb.1 hb.2]
      | array vs =>
          have hg2 : vs.length < 2 ^ 64 ∧ goodList vs = true := by
            have := hg
            simp only [good, Bool.and_eq_true, decide_eq_true_eq] at this
            exact this
          have hdep : depthList vs ≤ fuel := by
            have : depth (.array vs) = depthList vs + 1 := by simp [depth]
            omega
          have h13 : (13 : Nat) ∉ 42 :: natToDec vs.length := by
            intro hm
            rcases List.mem_cons.mp hm with h | h
            · exact absurd h (by norm_num)
            · have := natToDec_digit h; omega
          have ht := takeLine_app (42 :: natToDec vs.length)
            (encodeList vs ++ rest) h13
          simp only [List.cons_append] at ht
          have hu := readUintM_natToDec vs.length [10] hg2.1
          have henc : encode (.array vs) ++ rest
              = 42 :: (natToDec vs.length ++ 13 :: 10 :: (encodeList vs ++ rest)) := by
            simp [encode, crlf]
          rw [henc]
          simp only [decodeValue, List.isEmpty_cons, List.headD_cons]
          norm_num
          rw [ht]
          simp only [List.tail_cons, hu]
          have aux : ∀ (ws : List RedisValue) (rest2 : Bytes), goodList ws = true →
              depthList ws ≤ fuel →
              decodeManyF (fun b => decodeValue fuel b) ws.length (encodeList ws ++ rest2)
                = some (ws, rest2) := by
            intro ws
            induction ws with
            | nil => intro rest2 _ _; simp [encodeList, decodeManyF]
            | cons w ws2 ihw =>
                intro rest2 hgw hdw
                have hgw2 : good w = true ∧ goodList ws2 = true := by
                  simpa [goodList, Bool.and_eq_true] using hgw
                have hdw2 : depth w ≤ fuel ∧ depthList ws2 ≤ fuel := by
                  have : depthList (w :: ws2) = max (depth w) (depthList ws2) := by
                    simp [depthList]
                  constructor <;> omega
                have hsplit : encodeList (w :: ws2) ++ rest2
                    = encode w ++ (encodeList ws2 ++ rest2) := by
                  simp [encodeList]
                have hlen3 : (w :: ws2).length = ws2.length + 1 := rfl
                rw [hsplit, hlen3]
                simp only [decodeManyF]
                simp only [ih w (encodeList ws2 ++ rest2) hgw2.1 hdw2.1]
                simp only [ihw rest2 hgw2.2 hdw2.2]
          simp only [aux vs rest hg2.2 hdep]
      | error e => simp [good] at hg
      | nullString => simp [good] at hg
      | nullArray => simp [good] at hg

end RedisRust

namespace RedisRust

/-- An empty store. -/
def emptyDB : DB := fun _ => none

/-- An empty pub/sub registry. -/
def emptyReg : Registry := ⟨fun _ => none, fun _ => none, fun _ => none⟩

/-- A fresh connection handler state over an empty store. -/
def baseSt : HState := ⟨1, false, false, [], emptyDB, emptyReg⟩

/-- A store holding a one-element list at key `k`. -/
def stListK : HState :=
  { baseSt with db := (dbInsert emptyDB (strBytes "k")
      (.list (ListRecord.fromList [strBytes "a"]))) }

/-- C2 — encode/decode round-trip holds for the string (bulk), integer
and array variants: decoding the encoding over a complete buffer (with
fuel covering the value's nesting depth, the recursion depth of
`read_value`) returns the value and consumes exactly its frame. -/
theorem c2_roundtrip_good (v : RedisValue) (h : good v = true) :
    decodeValue (depth v) (encode v) = some (v, []) := by
  have h2 := decode_encode (depth v) v [] h le_rfl
  simpa using h2

/-- A sample nested value exercising `c2_roundtrip_good`. -/
def c2val : RedisValue := .array [.str (strBytes "bar"), .int (-5), .array [.int 12]]

/-- Witness for `c2_roundtrip_good` at a concrete nested value. -/
theorem c2_roundtrip_good_witness :
    good c2val = true ∧ decodeValue (depth c2val) (encode c2val) = some (c2val, []) :=
  ⟨by decide, c2_roundtrip_good c2val (by decide)⟩

/-- C2 counterexample — the encodings of the nil values (`$-1\r\n`,
`*-1\r\n`) do not decode: `read_uint` rejects the `-1` length field,
so `Null`/NilBulk and NilArray do not round-trip. -/
theorem c2_nil_counterexample :
    decodeTop (encode RedisValue.nullString) = none ∧
    decodeTop (encode RedisValue.nullArray) = none := by
  constructor <;> rfl

/-- C8 — the payload of a bulk string is not awaited: when the frame
`$3\r\nbar\r\n` arrives split after its header, `read_value` reads
three stale buffer bytes as the payload and underflows the position
counter (`none`, a panic), instead of the `bar` that the complete byte
sequence decodes to (which the single-chunk run and the fully-buffered
decoder both produce). -/
theorem c8_parser_split_bug :
    readValueChunked 8 ⟨[], 0, [strBytes "$3\r\n", strBytes "bar\r\n"]⟩ = none ∧
    (readValueChunked 8 ⟨[], 0, [strBytes "$3\r\nbar\r\n"]⟩).map Prod.fst
      = some (.str (strBytes "bar")) ∧
    decodeTop (strBytes "$3\r\nbar\r\n") = some (.str (strBytes "bar"), []) := by
  refine ⟨rfl, rfl, rfl⟩

/-- C9 — `DISCARD` has no arm in `execute_command`: being listed in
`TRANSACTION_COMMANDS` it is not queued in multi-mode, and it falls
through to the unknown-command arm, returning
`Err unknown command 'DISCARD'` and leaving the whole state (the
queue and `multi_mode` included) untouched. -/
theorem c9_discard_unknown (now : Int) (st : HState) (args : List RedisValue) :
    handleCommands now (strBytes "DISCARD") args st
      = .ok (encode (.error (strBytes "Err unknown command " ++ quo
          ++ strBytes "DISCARD" ++ quo)), st) := by
  unfold handleCommands
  rw [if_neg (by intro hc; exact hc.2 (by decide))]
  rw [if_neg (by decide)]
  rfl

end RedisRust

namespace RedisRust

/-- C1 (amended) — GET returns the stored value's encoding when the
key holds an unexpired `StringRecord`, and the nil bulk string in
every other case: absent key, expired record, or a record of another
variant (list or stream) — the wrong-variant case yields NilBulk, not
a WRONGTYPE error. -/
theorem c1_get_behavior (now : Int) (st : HState) (k : Bytes) (a0 : RedisValue) :
    (st.db k = none →
      executeCommand now (strBytes "GET") [a0, .str k] st
        = .ok (encode .nullString, st)) ∧
    (∀ sr, st.db k = some (.string sr) → sr.isValid now = true →
      executeCommand now (strBytes "GET") [a0, .str k] st
        = .ok (encode sr.value, st)) ∧
    (∀ sr, st.db k = some (.string sr) → sr.isValid now = false →
      executeCommand now (strBytes "GET") [a0, .str k] st
        = .ok (encode .nullString, st)) ∧
    (∀ lr, st.db k = some (.list lr) →
      executeCommand now (strBytes "GET") [a0, .str k] st
        = .ok (encode .nullString, st)) ∧
    (∀ sr, st.db k = some (.stream sr) →
      executeCommand now (strBytes "GET") [a0, .str k] st
        = .ok (encode .nullString, st)) := by
  have hd : executeCommand now (strBytes "GET") [a0, .str k] st
      = getCmd now [a0, .str k] st := rfl
  refine ⟨?_, ?_, ?_, ?_, ?_⟩
  · intro h
    rw [hd]
    simp [getCmd, argE, getStrE, RedisValue.getString, Bind.bind, Except.bind, h]
  · intro sr h hv
    rw [hd]
    simp [getCmd, argE, getStrE, RedisValue.getString, Bind.bind, Except.bind, h,
      DbRecord.getStringRec, hv]
  · intro sr h hv
    rw [hd]
    simp [getCmd, argE, getStrE, RedisValue.getString, Bind.bind, Except.bind, h,
      DbRecord.getStringRec, hv]
  · intro lr h
    rw [hd]
    simp [getCmd, argE, getStrE, RedisValue.getString, Bind.bind, Except.bind, h,
      DbRecord.getStringRec]
  · intro sr h
    rw [hd]
    simp [getCmd, argE, getStrE, RedisValue.getString, Bind.bind, Except.bind, h,
      DbRecord.getStringRec]

/-- Witness for `c1_get_behavior`: GET on a key holding a list. -/
theorem c1_get_behavior_witness :
    executeCommand 0 (strBytes "GET")
        [.str (strBytes "GET"), .str (strBytes "k")] stListK
      = .ok (encode .nullString, stListK) :=
  (c1_get_behavior 0 stListK (strBytes "k")
    (.str (strBytes "GET"))).2.2.2.1 (ListRecord.fromList [strBytes "a"]) rfl

/-- C1 counterexample — GET on a key holding a list returns the nil
bulk encoding `$-1\r\n`, whose first byte is not the `-` of an error
frame: no WRONGTYPE error is produced. -/
theorem c1_counterexample :
    executeCommand 0 (strBytes "GET")
        [.str (strBytes "GET"), .str (strBytes "k")] stListK
      = .ok (encode .nullString, stListK)
    ∧ (encode RedisValue.nullString).headD 0 ≠ 45 := by
  exact ⟨rfl, by decide⟩

/-- C5 — the LPOP no-count branch: on a non-empty list it pops and
returns the first element as a bulk string; on an absent key or an
empty list `returned_items` is empty and the branch indexes
`returned_items[0]`, which panics (`crash`) instead of returning
NilBulk. -/
theorem c5_lpop_behavior (now : Int) (st : HState) (k : Bytes) (a0 : RedisValue) :
    (∀ v tail ws, st.db k = some (.list ⟨v :: tail, ws⟩) →
      executeCommand now (strBytes "LPOP") [a0, .str k] st
        = .ok (encode (.str v),
            { st with db := (dbInsert st.db k (.list ⟨tail, ws⟩)) })) ∧
    (st.db k = none →
      executeCommand now (strBytes "LPOP") [a0, .str k] st = .error .crash) ∧
    (∀ ws, st.db k = some (.list ⟨[], ws⟩) →
      executeCommand now (strBytes "LPOP") [a0, .str k] st = .error .crash) := by
  have hd : executeCommand now (strBytes "LPOP") [a0, .str k] st
      = lpopCmd [a0, .str k] st := rfl
  refine ⟨?_, ?_, ?_⟩
  · intro v tail ws h
    rw [hd]
    simp [lpopCmd, argE, getStrE, RedisValue.getString, Bind.bind, Except.bind, h,
      DbRecord.getList]
  · intro h
    rw [hd]
    simp [lpopCmd, argE, getStrE, RedisValue.getString, Bind.bind, Except.bind, h]
  · intro ws h
    rw [hd]
    simp [lpopCmd, argE, getStrE, RedisValue.getString, Bind.bind, Except.bind, h,
      DbRecord.getList]

/-- Witness for `c5_lpop_behavior`: LPOP on an absent key panics, and
LPOP on a one-element list pops it. -/
theorem c5_lpop_behavior_witness :
    executeCommand 0 (strBytes "LPOP")
        [.str (strBytes "LPOP"), .str (strBytes "q")] baseSt = .error .crash
    ∧ executeCommand 0 (strBytes "LPOP")
        [.str (strBytes "LPOP"), .str (strBytes "k")] stListK
      = .ok (encode (.str (strBytes "a")),
          { stListK with db := (dbInsert stListK.db (strBytes "k")
              (.list ⟨[], []⟩)) }) :=
  ⟨(c5_lpop_behavior 0 baseSt (strBytes "q") (.str (strBytes "LPOP"))).2.1 rfl,
   (c5_lpop_behavior 0 stListK (strBytes "k")
     (.str (strBytes "LPOP"))).1 (strBytes "a") [] [] rfl⟩

/-- C10 — UNSUBSCRIBE unwraps the post-removal subscriptions entry of
the issuing connection: with no entry (the connection never
subscribed) the `unwrap` of `None` panics and no `unsubscribe`
response is produced; with an entry present it responds with the
remaining channel count after removal. -/
theorem c10_unsubscribe_behavior (st : HState) (ch : Bytes) (a0 : RedisValue) :
    (st.reg.subscriptions st.id = none →
      executeCommand 0 (strBytes "UNSUBSCRIBE") [a0, .str ch] st = .error .crash) ∧
    (∀ s, st.reg.subscriptions st.id = some s →
      executeCommand 0 (strBytes "UNSUBSCRIBE") [a0, .str ch] st
        = .ok (encode (.array [.str (strBytes "unsubscribe"), .str ch,
            .int (s.erase ch).length]),
          { st with
            reg := { channels := fun c => (if c = ch then
                        (st.reg.channels ch).map (fun s0 => s0.erase st.id)
                      else st.reg.channels c)
                     subscriptions := fun i => (if i = st.id then
                        (st.reg.subscriptions st.id).map (fun s0 => s0.erase ch)
                      else st.reg.subscriptions i)
                     senders := st.reg.senders }
            subscribeMode := (if (s.erase ch).length = 0 then false
                              else st.subscribeMode) })) := by
  have hd : executeCommand 0 (strBytes "UNSUBSCRIBE") [a0, .str ch] st
      = unsubscribeCmd [a0, .str ch] st := rfl
  constructor
  · intro h
    rw [hd]
    simp [unsubscribeCmd, argE, getStrE, RedisValue.getString, Bind.bind,
      Except.bind, h]
  · intro s h
    rw [hd]
    simp [unsubscribeCmd, argE, getStrE, RedisValue.getString, Bind.bind,
      Except.bind, h]

/-- A state whose connection 1 is subscribed to channel `news`. -/
def stSubbed : HState :=
  { baseSt with reg :=
      { channels := fun c => if c = strBytes "news" then some [1] else none
        subscriptions := fun i => if i = 1 then some [strBytes "news"] else none
        senders := fun _ => none } }

/-- Witness for `c10_unsubscribe_behavior`: a never-subscribed
connection panics; a subscribed one gets the count 0 response. -/
theorem c10_unsubscribe_behavior_witness :
    executeCommand 0 (strBytes "UNSUBSCRIBE")
        [.str (strBytes "UNSUBSCRIBE"), .str (strBytes "news")] baseSt
      = .error .crash
    ∧ executeCommand 0 (strBytes "UNSUBSCRIBE")
        [.str (strBytes "UNSUBSCRIBE"), .str (strBytes "news")] stSubbed
      = .ok (encode (.array [.str (strBytes "unsubscribe"),
          .str (strBytes "news"),
          .int (([strBytes "news"].erase (strBytes "news")).length)]),
        { stSubbed with
          reg := { channels := fun c => (if c = strBytes "news" then
                      (stSubbed.reg.channels (strBytes "news")).map
                        (fun s0 => s0.erase stSubbed.id)
                    else stSubbed.reg.channels c)
                   subscriptions := fun i => (if i = stSubbed.id then
                      (stSubbed.reg.subscriptions stSubbed.id).map
                        (fun s0 => s0.erase (strBytes "news"))
                    else stSubbed.reg.subscriptions i)
                   senders := stSubbed.reg.senders }
          subscribeMode := (if (([strBytes "news"].erase
              (strBytes "news")).length) = 0 then false
            else stSubbed.subscribeMode) }) :=
  ⟨(c10_unsubscribe_behavior baseSt (strBytes "news")
      (.str (strBytes "UNSUBSCRIBE"))).1 rfl,
   (c10_unsubscribe_behavior stSubbed (strBytes "news")
      (.str (strBytes "UNSUBSCRIBE"))).2 [strBytes "news"] rfl⟩

end RedisRust

namespace RedisRust

theorem natToDec_all_digits (n : Nat) : (natToDec n).all isDigit = true := by
  simp only [List.all_eq_true]
  intro d hd
  exact natToDec_isDigit hd

theorem isDigits_natToDec (n : Nat) : isDigits (natToDec n) = true := by
  simp [isDigits, List.isEmpty_iff, natToDec_ne_nil n, natToDec_all_digits n]

theorem natToDec_no_dash (n : Nat) : (45 : Nat) ∉ natToDec n := by
  intro h
  have := natToDec_digit h
  omega

theorem natToDec_head_ne (n : Nat) :
    (natToDec n).headD 0 ≠ 45 ∧ (natToDec n).headD 0 ≠ 43 := by
  rcases hx : natToDec n with _ | ⟨d, ds⟩
  · exact absurd hx (natToDec_ne_nil _)
  · have hd : d ∈ natToDec n := by rw [hx]; simp
    have := natToDec_digit hd
    simp
    omega

theorem parseU64_natToDec (n : Nat) (h : n < 2 ^ 64) :
    parseU64 (natToDec n) = some n := by
  unfold parseU64
  rw [if_neg (natToDec_head_ne n).2]
  rw [if_neg (by simp [List.isEmpty_iff, natToDec_ne_nil n, natToDec_all_digits n])]
  rw [decDigits_natToDec, if_pos h]

theorem parseI64_natToDec (n : Nat) (h : n < 2 ^ 63) :
    parseI64 (natToDec n) = some (n : Int) := by
  unfold parseI64
  rw [if_neg (natToDec_head_ne n).1, if_neg (natToDec_head_ne n).2]
  rw [if_neg (by simp [List.isEmpty_iff, natToDec_ne_nil n, natToDec_all_digits n])]
  rw [decDigits_natToDec, if_pos h]

theorem xrangeIdOk_natToDec (n : Nat) : xrangeIdOk (natToDec n) = true := by
  simp [xrangeIdOk, isDigits_natToDec n]

theorem xrangeBound_natToDec (n d : Nat) (h : n < 2 ^ 64) :
    xrangeBound (natToDec n) d = .ok (n, d) := by
  unfold xrangeBound
  rw [if_neg (natToDec_no_dash n), parseU64_natToDec n h]

theorem takeWhile_all {p : Nat → Bool} :
    ∀ l : Bytes, (∀ d ∈ l, p d = true) → l.takeWhile p = l := by
  intro l
  induction l with
  | nil => intro _; rfl
  | cons b bs ih =>
      intro h
      have hb := h b (by simp)
      simp [List.takeWhile, hb, ih (fun d hd => h d (by simp [hd]))]

theorem firstDashPart_app (a rest : Bytes) (ha : (45 : Nat) ∉ a) :
    firstDashPart (a ++ 45 :: rest) = a := by
  unfold firstDashPart
  exact (takeWhile_all_append a 45 rest
    (fun d hd => by simp; intro he; exact ha (he ▸ hd)) (by simp)).1

theorem secondDashPart_app (a b : Bytes) (ha : (45 : Nat) ∉ a)
    (hb : (45 : Nat) ∉ b) :
    secondDashPart (a ++ 45 :: b) = some b := by
  unfold secondDashPart
  rw [if_pos (by simp)]
  rw [firstDashPart_app a b ha]
  have hdrop : (a ++ 45 :: b).drop (a.length + 1) = b := by
    have h2 : a ++ 45 :: b = (a ++ [45]) ++ b := by simp
    rw [h2]
    exact List.drop_left' (by simp)
  rw [hdrop]
  rw [takeWhile_all b (fun d hd => by simp; intro he; exact hb (he ▸ hd))]

theorem idPartsI64_natDec (a b : Nat) (ha : a < 2 ^ 63) (hb : b < 2 ^ 63) :
    idPartsI64 (natToDec a ++ 45 :: natToDec b) = .ok ((a : Int), (b : Int)) := by
  unfold idPartsI64
  simp only [secondDashPart_app _ _ (natToDec_no_dash a) (natToDec_no_dash b),
    firstDashPart_app _ _ (natToDec_no_dash a),
    parseI64_natToDec a ha, parseI64_natToDec b hb]

theorem idPartsUsize_natDec (a b : Nat) (ha : a < 2 ^ 64) (hb : b < 2 ^ 64) :
    idPartsUsize (natToDec a ++ 45 :: natToDec b) = .ok (a, b) := by
  unfold idPartsUsize
  simp only [secondDashPart_app _ _ (natToDec_no_dash a) (natToDec_no_dash b),
    firstDashPart_app _ _ (natToDec_no_dash a),
    parseU64_natToDec a ha, parseU64_natToDec b hb]

theorem xaddIdOk_natDec_star (a : Nat) :
    xaddIdOk (natToDec a ++ [45, 42]) = true := by
  have hdrop : (natToDec a ++ [45, 42] : Bytes).drop ((natToDec a).length + 1)
      = [42] := by
    have h2 : (natToDec a ++ [45, 42] : Bytes) = (natToDec a ++ [45]) ++ [42] := by
      simp
    rw [h2]
    exact List.drop_left' (by simp)
  simp only [xaddIdOk, firstDashPart_app _ _ (natToDec_no_dash a), hdrop]
  have hne : ¬((natToDec a ++ [45, 42] : Bytes) = [42]) := by
    intro he
    have hl := congrArg List.length he
    have := natToDec_ne_nil a
    simp [List.length_append] at hl
  have hmem : (45 : Nat) ∈ (natToDec a ++ [45, 42] : Bytes) := by simp
  simp [hne, hmem, xaddPartOk, isDigits_natToDec a]

theorem xreadIdOk_natDec (a b : Nat) :
    xreadIdOk (natToDec a ++ 45 :: natToDec b) = true := by
  have hdrop : (natToDec a ++ 45 :: natToDec b).drop ((natToDec a).length + 1)
      = natToDec b := by
    have h2 : natToDec a ++ 45 :: natToDec b = (natToDec a ++ [45]) ++ natToDec b := by
      simp
    rw [h2]
    exact List.drop_left' (by simp)
  simp only [xreadIdOk, firstDashPart_app _ _ (natToDec_no_dash a), hdrop]
  simp [isDigits_natToDec]

end RedisRust

namespace RedisRust

theorem c3IncrAux (now : Int) (st : HState) (k : Bytes) (a0 : RedisValue)
    (lr : ListRecord) (h : st.db k = some (.list lr)) :
    executeCommand now (strBytes "INCR") [a0, .str k] st
      = .ok (encode (.int 0), st) := by
  have hd : executeCommand now (strBytes "INCR") [a0, .str k] st
      = incrCmd [a0, .str k] st := rfl
  rw [hd]
  simp [incrCmd, argE, getStrE, RedisValue.getString, Bind.bind, Except.bind, h]

theorem c3XaddAux (now : Int) (st : HState) (k f w : Bytes) (a0 : RedisValue)
    (lr : ListRecord) (h : st.db k = some (.list lr)) :
    executeCommand now (strBytes "XADD")
        [a0, .str k, .str (strBytes "1-1"), .str f, .str w] st
      = .ok (encode (.str (strBytes "1-1")), st) := by
  have hd : executeCommand now (strBytes "XADD")
      [a0, .str k, .str (strBytes "1-1"), .str f, .str w] st
      = xaddCmd now [a0, .str k, .str (strBytes "1-1"), .str f, .str w] st := rfl
  rw [hd]
  have hid : xaddIdOk (strBytes "1-1") = true := by decide
  have hne : (strBytes "1-1" = ([42] : Bytes)) = False := by decide
  have hsec : secondDashPart (strBytes "1-1") = some (strBytes "1") := by decide
  have hfst : firstDashPart (strBytes "1-1") = strBytes "1" := by decide
  have hp : parseI64 (strBytes "1") = some 1 := by decide
  simp [xaddCmd, argE, getStrE, RedisValue.getString, Bind.bind, Except.bind,
    kvBuild, assocSet, hid, hne, hsec, hfst, hp, h, DbRecord.getStream]

theorem c3XrangeAux (now : Int) (st : HState) (k : Bytes) (a0 : RedisValue)
    (lr : ListRecord) (h : st.db k = some (.list lr)) :
    executeCommand now (strBytes "XRANGE")
        [a0, .str k, .str (strBytes "0"), .str (strBytes "5")] st
      = .ok (encode (.array []), st) := by
  have hd : executeCommand now (strBytes "XRANGE")
      [a0, .str k, .str (strBytes "0"), .str (strBytes "5")] st
      = xrangeCmd [a0, .str k, .str (strBytes "0"), .str (strBytes "5")] st := rfl
  rw [hd]
  have hlo : xrangeIdOk (strBytes "0") = true := by decide
  have hhi : xrangeIdOk (strBytes "5") = true := by decide
  have hbl : xrangeBound (strBytes "0") 0 = .ok (0, 0) := rfl
  have hbh : xrangeBound (strBytes "5") (2 ^ 64 - 1) = .ok (5, 2 ^ 64 - 1) := rfl
  have hm1 : (strBytes "0" = strBytes "-") = False := by decide
  have hm2 : (strBytes "5" = strBytes "+") = False := by decide
  simp only [xrangeCmd, argE, getStrE, RedisValue.getString, Bind.bind, Except.bind,
    hlo, hhi, hbl, hbh, hm1, hm2, List.get?, List.length_cons, List.length_nil,
    if_false, Bool.not_true, reduceCtorEq]
  simp only [h, DbRecord.getStream]
  simp

theorem c3XreadAux (now : Int) (st : HState) (k : Bytes) (a0 : RedisValue)
    (lr : ListRecord) (h : st.db k = some (.list lr)) :
    executeCommand now (strBytes "XREAD")
        [a0, .str (strBytes "STREAMS"), .str k, .str (strBytes "0-0")] st
      = .ok (encode (.array [.array [.str k, .array []]]), st) := by
  have hd : executeCommand now (strBytes "XREAD")
      [a0, .str (strBytes "STREAMS"), .str k, .str (strBytes "0-0")] st
      = xreadCmd [a0, .str (strBytes "STREAMS"), .str k, .str (strBytes "0-0")] st :=
    rfl
  rw [hd]
  have hb : (lower (strBytes "STREAMS") = strBytes "block") = False := by decide
  have hs : (lower (strBytes "STREAMS") = strBytes "streams") = True := by decide
  have hdol : (strBytes "0-0" = strBytes "$") = False := by decide
  have hok : xreadIdOk (strBytes "0-0") = true := by decide
  have hup : idPartsUsize (strBytes "0-0") = .ok (0, 0) := rfl
  simp [xreadCmd, xreadLoop, xreadItem, argE, getStrE, RedisValue.getString,
    Bind.bind, Except.bind, hb, hs, hdol, hok, hup, h, DbRecord.getStream,
    List.range_succ]

theorem c3RpushAux (now : Int) (st : HState) (k w : Bytes) (a0 : RedisValue)
    (sr : StreamRecord) (h : st.db k = some (.stream sr)) :
    executeCommand now (strBytes "RPUSH") [a0, .str k, .str w] st
      = .error .connErr := by
  have hd : executeCommand now (strBytes "RPUSH") [a0, .str k, .str w] st
      = rpushCmd [a0, .str k, .str w] st := rfl
  rw [hd]
  simp [rpushCmd, argE, getStrE, RedisValue.getString, Bind.bind, Except.bind,
    h, DbRecord.getList]

theorem c3LpushAux (now : Int) (st : HState) (k w : Bytes) (a0 : RedisValue)
    (sr : StreamRecord) (h : st.db k = some (.stream sr)) :
    executeCommand now (strBytes "LPUSH") [a0, .str k, .str w] st
      = .error .connErr := by
  have hd : executeCommand now (strBytes "LPUSH") [a0, .str k, .str w] st
      = lpushCmd [a0, .str k, .str w] st := rfl
  rw [hd]
  simp [lpushCmd, argE, getStrE, RedisValue.getString, Bind.bind, Except.bind,
    h, DbRecord.getList]

theorem c3LlenAux (now : Int) (st : HState) (k : Bytes) (a0 : RedisValue)
    (sr : StreamRecord) (h : st.db k = some (.stream sr)) :
    executeCommand now (strBytes "LLEN") [a0, .str k] st
      = .ok (encode (.int 0), st) := by
  have hd : executeCommand now (strBytes "LLEN") [a0, .str k] st
      = llenCmd [a0, .str k] st := rfl
  rw [hd]
  simp [llenCmd, argE, getStrE, RedisValue.getString, Bind.bind, Except.bind,
    h, DbRecord.getList]

theorem c3LpopAux (now : Int) (st : HState) (k : Bytes) (a0 : RedisValue)
    (sr : StreamRecord) (h : st.db k = some (.stream sr)) :
    executeCommand now (strBytes "LPOP") [a0, .str k] st = .error .crash := by
  have hd : executeCommand now (strBytes "LPOP") [a0, .str k] st
      = lpopCmd [a0, .str k] st := rfl
  rw [hd]
  simp [lpopCmd, argE, getStrE, RedisValue.getString, Bind.bind, Except.bind,
    h, DbRecord.getList]

theorem c3BlpopAux (now : Int) (st : HState) (k : Bytes) (a0 : RedisValue)
    (sr : StreamRecord) (h : st.db k = some (.stream sr)) :
    executeCommand now (strBytes "BLPOP") [a0, .str k, .str (strBytes "0")] st
      = .error .connErr := by
  have hd : executeCommand now (strBytes "BLPOP") [a0, .str k, .str (strBytes "0")] st
      = blpopCmd [a0, .str k, .str (strBytes "0")] st := rfl
  rw [hd]
  have hf : parseF64ok (strBytes "0") = true := by decide
  simp [blpopCmd, argE, getStrE, RedisValue.getString, Bind.bind, Except.bind,
    hf, h, DbRecord.getList]

theorem c3GetAux (now : Int) (st : HState) (k : Bytes) (a0 : RedisValue)
    (lr : ListRecord) (h : st.db k = some (.list lr)) :
    executeCommand now (strBytes "GET") [a0, .str k] st
      = .ok (encode .nullString, st) := by
  have hd : executeCommand now (strBytes "GET") [a0, .str k] st
      = getCmd now [a0, .str k] st := rfl
  rw [hd]
  simp [getCmd, argE, getStrE, RedisValue.getString, Bind.bind, Except.bind,
    h, DbRecord.getStringRec]

/-- C3 (amended) — no command returns a WRONGTYPE error on a
wrong-variant key; each handles the mismatch its own way:
GET treats the record as absent (NilBulk); INCR matches no branch and
answers `Integer 0`; XADD answers the supplied id as if it had been
added while storing nothing; XRANGE answers an empty Array; XREAD
answers `[key, []]` as for a stream with no new entries; LLEN answers
0; LPOP hits the `returned_items[0]` panic; RPUSH, LPUSH and BLPOP
return `Err(..)`, which closes the connection. -/
theorem c3_wrongtype_behavior (now : Int) (st : HState) (k f w : Bytes)
    (a0 : RedisValue) (lr : ListRecord) (sr : StreamRecord) :
    (st.db k = some (.list lr) →
      executeCommand now (strBytes "INCR") [a0, .str k] st
        = .ok (encode (.int 0), st)) ∧
    (st.db k = some (.list lr) →
      executeCommand now (strBytes "XADD")
          [a0, .str k, .str (strBytes "1-1"), .str f, .str w] st
        = .ok (encode (.str (strBytes "1-1")), st)) ∧
    (st.db k = some (.list lr) →
      executeCommand now (strBytes "XRANGE")
          [a0, .str k, .str (strBytes "0"), .str (strBytes "5")] st
        = .ok (encode (.array []), st)) ∧
    (st.db k = some (.list lr) →
      executeCommand now (strBytes "XREAD")
          [a0, .str (strBytes "STREAMS"), .str k, .str (strBytes "0-0")] st
        = .ok (encode (.array [.array [.str k, .array []]]), st)) ∧
    (st.db k = some (.stream sr) →
      executeCommand now (strBytes "RPUSH") [a0, .str k, .str w] st
        = .error .connErr) ∧
    (st.db k = some (.stream sr) →
      executeCommand now (strBytes "LPUSH") [a0, .str k, .str w] st
        = .error .connErr) ∧
    (st.db k = some (.stream sr) →
      executeCommand now (strBytes "LLEN") [a0, .str k] st
        = .ok (encode (.int 0), st)) ∧
    (st.db k = some (.stream sr) →
      executeCommand now (strBytes "LPOP") [a0, .str k] st = .error .crash) ∧
    (st.db k = some (.stream sr) →
      executeCommand now (strBytes "BLPOP") [a0, .str k, .str (strBytes "0")] st
        = .error .connErr) ∧
    (st.db k = some (.list lr) →
      executeCommand now (strBytes "GET") [a0, .str k] st
        = .ok (encode .nullString, st)) :=
  ⟨c3IncrAux now st k a0 lr, c3XaddAux now st k f w a0 lr,
   c3XrangeAux now st k a0 lr, c3XreadAux now st k a0 lr,
   c3RpushAux now st k w a0 sr, c3LpushAux now st k w a0 sr,
   c3LlenAux now st k a0 sr, c3LpopAux now st k a0 sr,
   c3BlpopAux now st k a0 sr, c3GetAux now st k a0 lr⟩

end RedisRust

namespace RedisRust

theorem natToDec_ne_star (n : Nat) : natToDec n ≠ [42] := by
  intro he
  have h42 : (42 : Nat) ∈ natToDec n := by rw [he]; simp
  have := natToDec_digit h42
  omega

theorem natToDec_app_ne_star (n : Nat) :
    (natToDec n ++ [45, 42] : Bytes) ≠ [42] := by
  intro he
  have hl := congrArg List.length he
  have h1 : 1 ≤ (natToDec n).length := by
    have := natToDec_ne_nil n
    cases hx : natToDec n
    · exact absurd hx this
    · simp [hx]
  simp [List.length_append] at hl

theorem parseI64_star : parseI64 ([42] : Bytes) = none := by decide

theorem xaddRejects_auto_false (lm ls msn : Nat) (h : lm ≤ msn) :
    xaddRejects (lm : Int) (ls : Int) (msn : Int)
      (xaddSeqExisting (lm : Int) (ls : Int) (msn : Int)) = false := by
  unfold xaddRejects xaddSeqExisting
  by_cases he : (lm : Int) = (msn : Int)
  · simp [he]
  · have hlt : (lm : Int) < (msn : Int) := by
      have : lm ≠ msn := by intro hx; exact he (by exact_mod_cast hx)
      have : lm < msn := by omega
      exact_mod_cast this
    simp [he]
    omega

theorem xaddRejects_gt (lm ls msn : Nat) (seqv : Int) (h : msn < lm) :
    xaddRejects (lm : Int) (ls : Int) (msn : Int) seqv = true := by
  unfold xaddRejects
  have : (msn : Int) < (lm : Int) := by exact_mod_cast h
  simp
  omega

theorem autoseq_ne_zero (lm ls msn : Nat) (h : lm ≤ msn) :
    ¬((msn : Int) = 0 ∧ xaddSeqExisting (lm : Int) (ls : Int) (msn : Int) = 0) := by
  rintro ⟨h0, hseq⟩
  have hm0 : msn = 0 := by exact_mod_cast h0
  subst hm0
  have hl0 : lm = 0 := by omega
  subst hl0
  unfold xaddSeqExisting at hseq
  simp at hseq
  omega

end RedisRust

namespace RedisRust

theorem c6AbsentAux (now : Int) (st : HState) (k f w : Bytes) (a0 : RedisValue)
    (msn : Nat) (hms : msn < 2 ^ 63) (h : st.db k = none) :
    executeCommand now (strBytes "XADD")
        [a0, .str k, .str (natToDec msn ++ [45, 42]), .str f, .str w] st
      = .ok (encode (.str (intToDec (msn : Int) ++ [45]
            ++ intToDec (xaddSeqNew (msn : Int)))),
          { st with db := (dbInsert st.db k (.stream (StreamRecord.new.push
              ⟨intToDec (msn : Int) ++ [45] ++ intToDec (xaddSeqNew (msn : Int)),
               [(f, w)]⟩))) }) := by
  have hd : executeCommand now (strBytes "XADD")
      [a0, .str k, .str (natToDec msn ++ [45, 42]), .str f, .str w] st
      = xaddCmd now [a0, .str k, .str (natToDec msn ++ [45, 42]), .str f, .str w] st :=
    rfl
  rw [hd]
  have hid : xaddIdOk (natToDec msn ++ [45, 42]) = true := xaddIdOk_natDec_star msn
  have hsec : secondDashPart (natToDec msn ++ [45, 42]) = some [42] :=
    secondDashPart_app (natToDec msn) [42] (natToDec_no_dash msn) (by decide)
  have hfst : firstDashPart (natToDec msn ++ [45, 42]) = natToDec msn :=
    firstDashPart_app (natToDec msn) [42] (natToDec_no_dash msn)
  have hp : parseI64 (natToDec msn) = some (msn : Int) := parseI64_natToDec msn hms
  simp [xaddCmd, argE, getStrE, RedisValue.getString, Bind.bind, Except.bind,
    kvBuild, assocSet, hid, hsec, hfst, hp, parseI64_star,
    natToDec_app_ne_star msn, natToDec_ne_star msn, h]

theorem c6EmptyAux (now : Int) (st : HState) (k f w : Bytes) (a0 : RedisValue)
    (msn : Nat) (ws : List Waiter) (hms : msn < 2 ^ 63)
    (h : st.db k = some (.stream ⟨[], ws⟩)) :
    executeCommand now (strBytes "XADD")
        [a0, .str k, .str (natToDec msn ++ [45, 42]), .str f, .str w] st
      = .ok (encode (.str (intToDec (msn : Int) ++ [45]
            ++ intToDec (xaddSeqExisting 0 0 (msn : Int)))),
          { st with db := (dbInsert st.db k (.stream (StreamRecord.push ⟨[], ws⟩
              ⟨intToDec (msn : Int) ++ [45]
                ++ intToDec (xaddSeqExisting 0 0 (msn : Int)), [(f, w)]⟩))) })
    ∧ xaddSeqExisting 0 0 (msn : Int) = (if (msn : Int) = 0 then 1 else 0)
    ∧ ¬((msn : Int) = 0 ∧ xaddSeqExisting 0 0 (msn : Int) = 0) := by
  refine ⟨?_, by simp [xaddSeqExisting, eq_comm], ?_⟩
  · have hd : executeCommand now (strBytes "XADD")
        [a0, .str k, .str (natToDec msn ++ [45, 42]), .str f, .str w] st
        = xaddCmd now [a0, .str k, .str (natToDec msn ++ [45, 42]), .str f, .str w] st :=
      rfl
    rw [hd]
    have hid : xaddIdOk (natToDec msn ++ [45, 42]) = true := xaddIdOk_natDec_star msn
    have hsec : secondDashPart (natToDec msn ++ [45, 42]) = some [42] :=
      secondDashPart_app (natToDec msn) [42] (natToDec_no_dash msn) (by decide)
    have hfst : firstDashPart (natToDec msn ++ [45, 42]) = natToDec msn :=
      firstDashPart_app (natToDec msn) [42] (natToDec_no_dash msn)
    have hp : parseI64 (natToDec msn) = some (msn : Int) := parseI64_natToDec msn hms
    have hple : idPartsI64 (strBytes "0-0") = .ok (0, 0) := rfl
    have hrej : xaddRejects (0 : Int) (0 : Int) (msn : Int)
        (xaddSeqExisting (0 : Int) (0 : Int) (msn : Int)) = false := by
      have h0 := xaddRejects_auto_false 0 0 msn (by omega)
      simpa using h0
    simp [xaddCmd, argE, getStrE, RedisValue.getString, Bind.bind, Except.bind,
      kvBuild, assocSet, hid, hsec, hfst, hp, parseI64_star,
      natToDec_app_ne_star msn, natToDec_ne_star msn, h, DbRecord.getStream,
      StreamRecord.peekLast, hple, hrej]
  · have h0 := autoseq_ne_zero 0 0 msn (by omega)
    simpa using h0

theorem c6LastAcceptAux (now : Int) (st : HState) (k f w : Bytes) (a0 : RedisValue)
    (msn lm ls : Nat) (ws : List Waiter) (entries : List StreamEntry)
    (kv0 : List (Bytes × Bytes))
    (hms : msn < 2 ^ 63) (hlm : lm < 2 ^ 63) (hls : ls + 1 < 2 ^ 63)
    (hacc : lm ≤ msn)
    (h : st.db k = some (.stream ⟨entries, ws⟩))
    (hlast : entries.getLast? = some ⟨natToDec lm ++ 45 :: natToDec ls, kv0⟩) :
    executeCommand now (strBytes "XADD")
        [a0, .str k, .str (natToDec msn ++ [45, 42]), .str f, .str w] st
      = .ok (encode (.str (intToDec (msn : Int) ++ [45]
            ++ intToDec (xaddSeqExisting (lm : Int) (ls : Int) (msn : Int)))),
          { st with db := (dbInsert st.db k (.stream (StreamRecord.push
              ⟨entries, ws⟩
              ⟨intToDec (msn : Int) ++ [45]
                ++ intToDec (xaddSeqExisting (lm : Int) (ls : Int) (msn : Int)),
               [(f, w)]⟩))) })
    ∧ xaddSeqExisting (lm : Int) (ls : Int) (msn : Int)
        = (if (lm : Int) = (msn : Int) then (ls : Int) + 1 else 0)
    ∧ ¬((msn : Int) = 0
        ∧ xaddSeqExisting (lm : Int) (ls : Int) (msn : Int) = 0) := by
  refine ⟨?_, by simp [xaddSeqExisting], autoseq_ne_zero lm ls msn hacc⟩
  have hd : executeCommand now (strBytes "XADD")
      [a0, .str k, .str (natToDec msn ++ [45, 42]), .str f, .str w] st
      = xaddCmd now [a0, .str k, .str (natToDec msn ++ [45, 42]), .str f, .str w] st :=
    rfl
  rw [hd]
  have hid : xaddIdOk (natToDec msn ++ [45, 42]) = true := xaddIdOk_natDec_star msn
  have hsec : secondDashPart (natToDec msn ++ [45, 42]) = some [42] :=
    secondDashPart_app (natToDec msn) [42] (natToDec_no_dash msn) (by decide)
  have hfst : firstDashPart (natToDec msn ++ [45, 42]) = natToDec msn :=
    firstDashPart_app (natToDec msn) [42] (natToDec_no_dash msn)
  have hp : parseI64 (natToDec msn) = some (msn : Int) := parseI64_natToDec msn hms
  have hple : idPartsI64 (natToDec lm ++ 45 :: natToDec ls)
      = .ok ((lm : Int), (ls : Int)) := idPartsI64_natDec lm ls hlm (by omega)
  have hrej := xaddRejects_auto_false lm ls msn hacc
  simp [xaddCmd, argE, getStrE, RedisValue.getString, Bind.bind, Except.bind,
    kvBuild, assocSet, hid, hsec, hfst, hp, parseI64_star,
    natToDec_app_ne_star msn, natToDec_ne_star msn, h, DbRecord.getStream,
    StreamRecord.peekLast, hlast, hple, hrej]

theorem c6LastRejectAux (now : Int) (st : HState) (k f w : Bytes) (a0 : RedisValue)
    (msn lm ls : Nat) (ws : List Waiter) (entries : List StreamEntry)
    (kv0 : List (Bytes × Bytes))
    (hms : msn < 2 ^ 63) (hlm : lm < 2 ^ 63) (hls : ls + 1 < 2 ^ 63)
    (hgt : msn < lm)
    (h : st.db k = some (.stream ⟨entries, ws⟩))
    (hlast : entries.getLast? = some ⟨natToDec lm ++ 45 :: natToDec ls, kv0⟩) :
    executeCommand now (strBytes "XADD")
        [a0, .str k, .str (natToDec msn ++ [45, 42]), .str f, .str w] st
      = .ok (encode (.error (strBytes
          "ERR The ID specified in XADD is equal or smaller than the target stream top item")),
        st) := by
  have hd : executeCommand now (strBytes "XADD")
      [a0, .str k, .str (natToDec msn ++ [45, 42]), .str f, .str w] st
      = xaddCmd now [a0, .str k, .str (natToDec msn ++ [45, 42]), .str f, .str w] st :=
    rfl
  rw [hd]
  have hid : xaddIdOk (natToDec msn ++ [45, 42]) = true := xaddIdOk_natDec_star msn
  have hsec : secondDashPart (natToDec msn ++ [45, 42]) = some [42] :=
    secondDashPart_app (natToDec msn) [42] (natToDec_no_dash msn) (by decide)
  have hfst : firstDashPart (natToDec msn ++ [45, 42]) = natToDec msn :=
    firstDashPart_app (natToDec msn) [42] (natToDec_no_dash msn)
  have hp : parseI64 (natToDec msn) = some (msn : Int) := parseI64_natToDec msn hms
  have hple : idPartsI64 (natToDec lm ++ 45 :: natToDec ls)
      = .ok ((lm : Int), (ls : Int)) := idPartsI64_natDec lm ls hlm (by omega)
  have hrej := xaddRejects_gt lm ls msn
    (xaddSeqExisting (lm : Int) (ls : Int) (msn : Int)) hgt
  simp [xaddCmd, argE, getStrE, RedisValue.getString, Bind.bind, Except.bind,
    kvBuild, assocSet, hid, hsec, hfst, hp, parseI64_star,
    natToDec_app_ne_star msn, natToDec_ne_star msn, h, DbRecord.getStream,
    StreamRecord.peekLast, hlast, hple, hrej]

/-- C6 — XADD with an auto-sequence id `ms-*`: on an absent key the
chosen sequence is `xaddSeqNew ms` (1 when ms = 0, else 0); on an
existing stream whose entries are empty, `peek_last` yields `0-0` and
the chosen sequence is `xaddSeqExisting 0 0 ms` = (1 when ms = 0, else
0); on an existing stream with last id `lm-ls`, when `lm ≤ ms` the
entry is accepted with sequence `if lm = ms then ls + 1 else 0` and
the chosen id is never `0-0`, and when `ms < lm` the monotonicity
error is returned and nothing is added. -/
theorem c6_xadd_autoseq (now : Int) (st : HState) (k f w : Bytes) (a0 : RedisValue)
    (msn lm ls : Nat) (ws : List Waiter) (entries : List StreamEntry)
    (kv0 : List (Bytes × Bytes))
    (hms : msn < 2 ^ 63) (hlm : lm < 2 ^ 63) (hls : ls + 1 < 2 ^ 63) :
    (st.db k = none →
      executeCommand now (strBytes "XADD")
          [a0, .str k, .str (natToDec msn ++ [45, 42]), .str f, .str w] st
        = .ok (encode (.str (intToDec (msn : Int) ++ [45]
              ++ intToDec (xaddSeqNew (msn : Int)))),
            { st with db := (dbInsert st.db k (.stream (StreamRecord.new.push
                ⟨intToDec (msn : Int) ++ [45] ++ intToDec (xaddSeqNew (msn : Int)),
                 [(f, w)]⟩))) })) ∧
    (xaddSeqNew (msn : Int) = (if (msn : Int) = 0 then 1 else 0)) ∧
    (¬((msn : Int) = 0 ∧ xaddSeqNew (msn : Int) = 0)) ∧
    (st.db k = some (.stream ⟨[], ws⟩) →
      executeCommand now (strBytes "XADD")
          [a0, .str k, .str (natToDec msn ++ [45, 42]), .str f, .str w] st
        = .ok (encode (.str (intToDec (msn : Int) ++ [45]
              ++ intToDec (xaddSeqExisting 0 0 (msn : Int)))),
            { st with db := (dbInsert st.db k (.stream (StreamRecord.push ⟨[], ws⟩
                ⟨intToDec (msn : Int) ++ [45]
                  ++ intToDec (xaddSeqExisting 0 0 (msn : Int)), [(f, w)]⟩))) })
      ∧ xaddSeqExisting 0 0 (msn : Int) = (if (msn : Int) = 0 then 1 else 0)
      ∧ ¬((msn : Int) = 0 ∧ xaddSeqExisting 0 0 (msn : Int) = 0)) ∧
    (lm ≤ msn → st.db k = some (.stream ⟨entries, ws⟩) →
      entries.getLast? = some ⟨natToDec lm ++ 45 :: natToDec ls, kv0⟩ →
      executeCommand now (strBytes "XADD")
          [a0, .str k, .str (natToDec msn ++ [45, 42]), .str f, .str w] st
        = .ok (encode (.str (intToDec (msn : Int) ++ [45]
              ++ intToDec (xaddSeqExisting (lm : Int) (ls : Int) (msn : Int)))),
            { st with db := (dbInsert st.db k (.stream (StreamRecord.push
                ⟨entries, ws⟩
                ⟨intToDec (msn : Int) ++ [45]
                  ++ intToDec (xaddSeqExisting (lm : Int) (ls : Int) (msn : Int)),
                 [(f, w)]⟩))) })
      ∧ xaddSeqExisting (lm : Int) (ls : Int) (msn : Int)
          = (if (lm : Int) = (msn : Int) then (ls : Int) + 1 else 0)
      ∧ ¬((msn : Int) = 0
          ∧ xaddSeqExisting (lm : Int) (ls : Int) (msn : Int) = 0)) ∧
    (msn < lm → st.db k = some (.stream ⟨entries, ws⟩) →
      entries.getLast? = some ⟨natToDec lm ++ 45 :: natToDec ls, kv0⟩ →
      executeCommand now (strBytes "XADD")
          [a0, .str k, .str (natToDec msn ++ [45, 42]), .str f, .str w] st
        = .ok (encode (.error (strBytes
            "ERR The ID specified in XADD is equal or smaller than the target stream top item")),
          st)) := by
  refine ⟨fun h => c6AbsentAux now st k f w a0 msn hms h,
    by simp [xaddSeqNew], ?_,
    fun h => c6EmptyAux now st k f w a0 msn ws hms h,
    fun hacc h hlast => c6LastAcceptAux now st k f w a0 msn lm ls ws entries kv0
      hms hlm hls hacc h hlast,
    fun hgt h hlast => c6LastRejectAux now st k f w a0 msn lm ls ws entries kv0
      hms hlm hls hgt h hlast⟩
  rintro ⟨h0, hseq⟩
  rw [h0] at hseq
  simp [xaddSeqNew] at hseq

end RedisRust

namespace RedisRust

/-- Witness for `c6_xadd_autoseq`: an auto-sequenced XADD `0-*` on an
absent key chooses sequence 1 (id `0-1`), never `0-0`. -/
theorem c6_xadd_autoseq_witness :
    executeCommand 0 (strBytes "XADD")
        [.str (strBytes "XADD"), .str (strBytes "s"),
         .str (natToDec 0 ++ [45, 42]), .str (strBytes "a"), .str (strBytes "b")]
        baseSt
      = .ok (encode (.str (intToDec ((0 : Nat) : Int) ++ [45]
            ++ intToDec (xaddSeqNew ((0 : Nat) : Int)))),
          { baseSt with db := (dbInsert baseSt.db (strBytes "s")
              (.stream (StreamRecord.new.push
                ⟨intToDec ((0 : Nat) : Int) ++ [45]
                  ++ intToDec (xaddSeqNew ((0 : Nat) : Int)),
                 [(strBytes "a", strBytes "b")]⟩))) }) :=
  (c6_xadd_autoseq 0 baseSt (strBytes "s") (strBytes "a") (strBytes "b")
    (.str (strBytes "XADD")) 0 0 0 [] [] [] (by norm_num) (by norm_num)
    (by norm_num)).1 rfl

theorem get?_eq_getD {α : Type} (d : α) :
    ∀ (l : List α) (i : Nat), i < l.length → l.get? i = some (l.getD i d) := by
  intro l
  induction l with
  | nil => intro i hi; simp at hi
  | cons x xs ih =>
      intro i hi
      cases i with
      | zero => simp
      | succ j =>
          have hj : j < xs.length := by simpa using hi
          simpa using ih j hj

theorem get?_cons2 {α : Type} (a b : α) (l : List α) (i : Nat) :
    (a :: b :: l).get? (2 + i) = l.get? i := by
  have h2 : 2 + i = i + 2 := by omega
  rw [h2]
  rfl

theorem range_map_getD (g : Bytes → RedisValue) :
    ∀ ks : List Bytes,
      (List.range ks.length).map (fun i => g (ks.getD i [])) = ks.map g := by
  intro ks
  induction ks with
  | nil => simp
  | cons x xs ih =>
      have hr : List.range (xs.length + 1)
          = 0 :: (List.range xs.length).map (fun i => i + 1) :=
        List.range_succ_eq_map xs.length
      simp only [List.length_cons, hr, List.map_cons, List.map_map]
      rw [List.cons_eq_cons]
      constructor
      · rfl
      · rw [← ih]
        rfl

/-- The property of one XREAD request entry: the supplied id is not
`$`, is well-formed, parses, and the addressed stream (when present as
a stream) has no entry with a strictly greater id. -/
def xreadStreamQuiet (st : HState) (name idB : Bytes) : Prop :=
  (idB = strBytes "$") = False ∧ xreadIdOk idB = true ∧
  ∃ p : Nat × Nat, idPartsUsize idB = Except.ok p ∧
    (match st.db name with
     | some record =>
         (match record.getStream with
          | some sr => xreadFilter p.1 p.2 sr.entries = Except.ok []
          | none => True)
     | none => True)

/-- C7 (amended) — XREAD without BLOCK, when no requested stream has
an entry strictly newer than its supplied id, returns an Array with
one element per requested stream — each the pair `[key, []]` — not an
empty Array. -/
theorem c7_xread_no_entries (now : Int) (st : HState) (a0 : RedisValue)
    (m : Bytes) (ks ids : List Bytes) (hm : lower m = strBytes "streams")
    (hlen : ids.length = ks.length) (hne : ks ≠ [])
    (hq : ∀ i, i < ks.length → xreadStreamQuiet st (ks.getD i []) (ids.getD i [])) :
    executeCommand now (strBytes "XREAD")
        (a0 :: .str m :: (ks.map RedisValue.str ++ ids.map RedisValue.str)) st
      = .ok (encode (.array (ks.map
          (fun k2 => RedisValue.array [.str k2, .array []]))), st) := by
  have hd : executeCommand now (strBytes "XREAD")
      (a0 :: .str m :: (ks.map RedisValue.str ++ ids.map RedisValue.str)) st
      = xreadCmd (a0 :: .str m :: (ks.map RedisValue.str ++ ids.map RedisValue.str))
          st := rfl
  rw [hd]
  have hn1 : 1 ≤ ks.length := by
    cases hx : ks
    · exact absurd hx hne
    · simp [hx]
  have hlen2 : (a0 :: RedisValue.str m ::
      (ks.map RedisValue.str ++ ids.map RedisValue.str)).length
      = 2 + 2 * ks.length := by
    simp [List.length_append, List.length_map, hlen]
    omega
  have hitem : ∀ i, i < ks.length →
      xreadItem (a0 :: .str m :: (ks.map RedisValue.str ++ ids.map RedisValue.str))
          0 false st i
        = .ok (.array [.str (ks.getD i []), .array []]) := by
    intro i hi
    obtain ⟨hdol, hok, p, hp, hfil⟩ := hq i hi
    have hargn : (a0 :: RedisValue.str m ::
        (ks.map RedisValue.str ++ ids.map RedisValue.str)).get? (2 + i)
        = some (.str (ks.getD i [])) := by
      rw [get?_cons2]
      rw [List.get?_append (by simpa using hi)]
      rw [List.get?_map, get?_eq_getD [] ks i hi]
      rfl
    have hargid : (a0 :: RedisValue.str m ::
        (ks.map RedisValue.str ++ ids.map RedisValue.str)).get?
          (2 + (ks.length + i))
        = some (.str (ids.getD i [])) := by
      rw [get?_cons2]
      rw [List.get?_append_right (by simp)]
      have hi2 : ks.length + i - (ks.map RedisValue.str).length = i := by simp
      rw [hi2, List.get?_map, get?_eq_getD [] ids i (by omega)]
      rfl
    have hidx1 : 2 + i + 0 = 2 + i := by omega
    have hidx2 : ((a0 :: RedisValue.str m ::
        (ks.map RedisValue.str ++ ids.map RedisValue.str)).length - 0) / 2 + 1 + i + 0
        = 2 + (ks.length + i) := by
      rw [hlen2]
      omega
    unfold xreadItem
    rw [hidx1, hidx2]
    simp only [argE, hargn, hargid, Bind.bind, Except.bind, getStrE,
      RedisValue.getString, hdol, if_false, hok, Bool.not_true, hp]
    rcases hdb : st.db (ks.getD i []) with _ | record
    · simp [hdb]
    · rw [hdb] at hfil
      rcases record with sr0 | lr0 | sr2
      · simp [hdb, DbRecord.getStream]
      · simp [hdb, DbRecord.getStream]
      · simp only [DbRecord.getStream] at hfil
        simp [hdb, DbRecord.getStream, hfil]
  have hloop : ∀ l : List Nat, (∀ i ∈ l, i < ks.length) →
      xreadLoop (a0 :: .str m :: (ks.map RedisValue.str ++ ids.map RedisValue.str))
          0 false st l
        = .ok (l.map (fun i => RedisValue.array [.str (ks.getD i []), .array []])) := by
    intro l
    induction l with
    | nil => intro _; rfl
    | cons i l2 ih =>
        intro hall
        have hi := hall i (by simp)
        unfold xreadLoop
        rw [hitem i hi]
        simp only [Bind.bind, Except.bind]
        rw [ih (fun j hj => hall j (by simp [hj]))]
        rfl
  unfold xreadCmd
  rw [if_neg (by rw [hlen2]; omega)]
  have ha1 : argE (a0 :: RedisValue.str m ::
      (ks.map RedisValue.str ++ ids.map RedisValue.str)) 1 = .ok (.str m) := rfl
  rw [ha1]
  simp only [Bind.bind, Except.bind, getStrE, RedisValue.getString]
  rw [hm]
  rw [if_neg (by decide), if_pos rfl]
  simp only [Bind.bind, Except.bind]
  have hcount : ((a0 :: RedisValue.str m ::
      (ks.map RedisValue.str ++ ids.map RedisValue.str)).length - 0 - 2) / 2
      = ks.length := by
    rw [hlen2]
    omega
  rw [hcount]
  rw [hloop (List.range ks.length) (by intro j hj; simpa using hj)]
  rw [range_map_getD (fun k2 => RedisValue.array [.str k2, .array []]) ks]

end RedisRust

namespace RedisRust

/-- A store holding an (empty) stream at key `k`. -/
def stStreamK : HState :=
  { baseSt with db := (dbInsert emptyDB (strBytes "k") (.stream ⟨[], []⟩)) }

/-- Witness for `c3_wrongtype_behavior`: INCR on a list key answers
Integer 0; RPUSH on a stream key closes the connection. -/
theorem c3_wrongtype_behavior_witness :
    executeCommand 0 (strBytes "INCR")
        [.str (strBytes "INCR"), .str (strBytes "k")] stListK
      = .ok (encode (.int 0), stListK)
    ∧ executeCommand 0 (strBytes "RPUSH")
        [.str (strBytes "RPUSH"), .str (strBytes "k"), .str (strBytes "v")] stStreamK
      = .error .connErr :=
  ⟨(c3_wrongtype_behavior 0 stListK (strBytes "k") (strBytes "f") (strBytes "v")
      (.str (strBytes "INCR")) (ListRecord.fromList [strBytes "a"]) ⟨[], []⟩).1 rfl,
   (c3_wrongtype_behavior 0 stStreamK (strBytes "k") (strBytes "f") (strBytes "v")
      (.str (strBytes "RPUSH")) (ListRecord.fromList [strBytes "a"])
      ⟨[], []⟩).2.2.2.2.1 rfl⟩

/-- C3 counterexample — INCR on a key holding a list answers
`Integer 0` (`:0\r\n`, not an error frame starting with `-`): there is
no WRONGTYPE error. -/
theorem c3_counterexample :
    executeCommand 0 (strBytes "INCR")
        [.str (strBytes "INCR"), .str (strBytes "k")] stListK
      = .ok (encode (.int 0), stListK)
    ∧ (encode (RedisValue.int 0)).headD 0 ≠ 45 :=
  ⟨rfl, by decide⟩

/-- Witness for `c7_xread_no_entries` at one absent stream. -/
theorem c7_xread_no_entries_witness :
    executeCommand 0 (strBytes "XREAD")
        (RedisValue.str (strBytes "XREAD") :: .str (strBytes "STREAMS")
          :: ([strBytes "s"].map RedisValue.str
              ++ [strBytes "0-0"].map RedisValue.str)) baseSt
      = .ok (encode (.array ([strBytes "s"].map
          (fun k2 => RedisValue.array [.str k2, .array []]))), baseSt) :=
  c7_xread_no_entries 0 baseSt (.str (strBytes "XREAD")) (strBytes "STREAMS")
    [strBytes "s"] [strBytes "0-0"] (by decide) rfl (by simp)
    (by
      intro i hi
      have hi0 : i = 0 := by simpa using hi
      subst hi0
      refine ⟨by decide, by decide, (0, 0), rfl, ?_⟩
      simp [baseSt, emptyDB])

theorem natToDec_one : natToDec 1 = [49] := by
  rw [natToDec, if_neg (by decide), Nat.digits_def' (by norm_num) (by norm_num)]
  norm_num

/-- C7 counterexample — XREAD STREAMS s 0-0 against an empty store
returns a one-element Array `[[s, []]]`, not an empty Array. -/
theorem c7_counterexample :
    executeCommand 0 (strBytes "XREAD")
        [.str (strBytes "XREAD"), .str (strBytes "STREAMS"), .str (strBytes "s"),
         .str (strBytes "0-0")] baseSt
      = .ok (encode (.array [.array [.str (strBytes "s"), .array []]]), baseSt)
    ∧ encode (.array [.array [.str (strBytes "s"), .array []]])
        ≠ encode (.array []) := by
  refine ⟨rfl, ?_⟩
  have e1 : encode (.array [.array [.str (strBytes "s"), .array []]])
      = 42 :: 49 :: (crlf ++ encodeList [.array [.str (strBytes "s"), .array []]]) := by
    simp [encode, natToDec_one]
  have e2 : encode (RedisValue.array []) = 42 :: 48 :: crlf := by
    simp [encode, natToDec, encodeList]
  rw [e1, e2]
  simp [crlf]

end RedisRust

namespace RedisRust

theorem pingCmd_queued {st : HState} {r : Bytes × HState}
    (h : pingCmd st = .ok r) : r.2.queued = st.queued := by
  unfold pingCmd at h
  simp only [Bind.bind, Except.bind] at h
  repeat' split at h
  all_goals (try (injection h with h; subst h))
  all_goals simp_all

theorem echoCmd_queued {args : List RedisValue} {st : HState} {r : Bytes × HState}
    (h : echoCmd args st = .ok r) : r.2.queued = st.queued := by
  unfold echoCmd at h
  simp only [Bind.bind, Except.bind] at h
  repeat' split at h
  all_goals (try (injection h with h; subst h))
  all_goals simp_all

theorem setCmd_queued {now : Int} {args : List RedisValue} {st : HState}
    {r : Bytes × HState} (h : setCmd now args st = .ok r) :
    r.2.queued = st.queued := by
  unfold setCmd at h
  simp only [Bind.bind, Except.bind] at h
  repeat' split at h
  all_goals (try (injection h with h; subst h))
  all_goals simp_all

theorem subscribeCmd_queued {args : List RedisValue} {st : HState}
    {r : Bytes × HState} (h : subscribeCmd args st = .ok r) :
    r.2.queued = st.queued := by
  unfold subscribeCmd at h
  simp only [Bind.bind, Except.bind] at h
  repeat' split at h
  all_goals (try (injection h with h; subst h))
  all_goals simp_all

theorem xaddCmd_queued {now : Int} {args : List RedisValue} {st : HState}
    {r : Bytes × HState} (h : xaddCmd now args st = .ok r) :
    r.2.queued = st.queued := by
  unfold xaddCmd at h
  simp only [Bind.bind, Except.bind] at h
  repeat' split at h
  all_goals (try (injection h with h; subst h))
  all_goals simp_all

end RedisRust

namespace RedisRust

theorem getCmd_queued {now : Int} {args : List RedisValue} {st : HState} {r : Bytes × HState}
    (h : getCmd now args st = .ok r) : r.2.queued = st.queued := by
  unfold getCmd at h
  simp only [Bind.bind, Except.bind] at h
  repeat' split at h
  all_goals (try (injection h with h; subst h))
  all_goals simp_all

theorem publishCmd_queued {args : List RedisValue} {st : HState} {r : Bytes × HState}
    (h : publishCmd args st = .ok r) : r.2.queued = st.queued := by
  unfold publishCmd at h
  simp only [Bind.bind, Except.bind] at h
  repeat' split at h
  all_goals (try (injection h with h; subst h))
  all_goals simp_all

theorem unsubscribeCmd_queued {args : List RedisValue} {st : HState} {r : Bytes × HState}
    (h : unsubscribeCmd args st = .ok r) : r.2.queued = st.queued := by
  unfold unsubscribeCmd at h
  simp only [Bind.bind, Except.bind] at h
  repeat' split at h
  all_goals (try (injection h with h; subst h))
  all_goals simp_all

theorem rpushCmd_queued {args : List RedisValue} {st : HState} {r : Bytes × HState}
    (h : rpushCmd args st = .ok r) : r.2.queued = st.queued := by
  unfold rpushCmd at h
  simp only [Bind.bind, Except.bind] at h
  repeat' split at h
  all_goals (try (injection h with h; subst h))
  all_goals simp_all

theorem lpushCmd_queued {args : List RedisValue} {st : HState} {r : Bytes × HState}
    (h : lpushCmd args st = .ok r) : r.2.queued = st.queued := by
  unfold lpushCmd at h
  simp only [Bind.bind, Except.bind] at h
  repeat' split at h
  all_goals (try (injection h with h; subst h))
  all_goals simp_all

theorem lrangeCmd_queued {args : List RedisValue} {st : HState} {r : Bytes × HState}
    (h : lrangeCmd args st = .ok r) : r.2.queued = st.queued := by
  unfold lrangeCmd at h
  simp only [Bind.bind, Except.bind] at h
  repeat' split at h
  all_goals (try (injection h with h; subst h))
  all_goals simp_all

theorem llenCmd_queued {args : List RedisValue} {st : HState} {r : Bytes × HState}
    (h : llenCmd args st = .ok r) : r.2.queued = st.queued := by
  unfold llenCmd at h
  simp only [Bind.bind, Except.bind] at h
  repeat' split at h
  all_goals (try (injection h with h; subst h))
  all_goals simp_all

theorem lpopCmd_queued {args : List RedisValue} {st : HState} {r : Bytes × HState}
    (h : lpopCmd args st = .ok r) : r.2.queued = st.queued := by
  unfold lpopCmd at h
  simp only [Bind.bind, Except.bind] at h
  repeat' split at h
  all_goals (try (injection h with h; subst h))
  all_goals simp_all

theorem blpopCmd_queued {args : List RedisValue} {st : HState} {r : Bytes × HState}
    (h : blpopCmd args st = .ok r) : r.2.queued = st.queued := by
  unfold blpopCmd at h
  simp only [Bind.bind, Except.bind] at h
  repeat' split at h
  all_goals (try (injection h with h; subst h))
  all_goals simp_all

theorem typeCmd_queued {args : List RedisValue} {st : HState} {r : Bytes × HState}
    (h : typeCmd args st = .ok r) : r.2.queued = st.queued := by
  unfold typeCmd at h
  simp only [Bind.bind, Except.bind] at h
  repeat' split at h
  all_goals (try (injection h with h; subst h))
  all_goals simp_all

theorem xrangeCmd_queued {args : List RedisValue} {st : HState} {r : Bytes × HState}
    (h : xrangeCmd args st = .ok r) : r.2.queued = st.queued := by
  unfold xrangeCmd at h
  simp only [Bind.bind, Except.bind] at h
  generalize natToDec (2 ^ 64 - 1) = big at h
  generalize (2 : Nat) ^ 64 - 1 = bigN at h
  split at h
  · injection h with h; subst h; rfl
  cases hA1 : argE args 1 with
  | error e => simp only [hA1] at h; exact Except.noConfusion h
  | ok a1 =>
  simp only [hA1] at h
  cases hS1 : getStrE a1 with
  | error e => simp only [hS1] at h; exact Except.noConfusion h
  | ok name =>
  simp only [hS1] at h
  cases hA2 : argE args 2 with
  | error e => simp only [hA2] at h; exact Except.noConfusion h
  | ok a2 =>
  simp only [hA2] at h
  cases hS2 : getStrE a2 with
  | error e => simp only [hS2] at h; exact Except.noConfusion h
  | ok loRaw =>
  simp only [hS2] at h
  cases hA3 : argE args 3 with
  | error e => simp only [hA3] at h; exact Except.noConfusion h
  | ok a3 =>
  simp only [hA3] at h
  cases hS3 : getStrE a3 with
  | error e => simp only [hS3] at h; exact Except.noConfusion h
  | ok hiRaw =>
  simp only [hS3] at h
  generalize (if loRaw = strBytes "-" then strBytes "0" else loRaw) = lo at h
  generalize (if hiRaw = strBytes "+" then big else hiRaw) = hi at h
  split at h
  · exact Except.noConfusion h
  split at h
  · exact Except.noConfusion h
  cases hLo : xrangeBound lo 0 with
  | error e => simp only [hLo] at h; exact Except.noConfusion h
  | ok loB =>
  simp only [hLo] at h
  cases hHi : xrangeBound hi bigN with
  | error e => simp only [hHi] at h; exact Except.noConfusion h
  | ok hiB =>
  simp only [hHi] at h
  repeat' split at h
  all_goals (try (injection h with h; subst h))
  all_goals (first | rfl | exact Except.noConfusion h)

theorem xreadCmd_queued {args : List RedisValue} {st : HState} {r : Bytes × HState}
    (h : xreadCmd args st = .ok r) : r.2.queued = st.queued := by
  unfold xreadCmd at h
  simp only [Bind.bind, Except.bind] at h
  repeat' split at h
  all_goals (try (injection h with h; subst h))
  all_goals simp_all

theorem incrCmd_queued {args : List RedisValue} {st : HState} {r : Bytes × HState}
    (h : incrCmd args st = .ok r) : r.2.queued = st.queued := by
  unfold incrCmd at h
  simp only [Bind.bind, Except.bind] at h
  repeat' split at h
  all_goals (try (injection h with h; subst h))
  all_goals simp_all

theorem multiCmd_queued {args : List RedisValue} {st : HState} {r : Bytes × HState}
    (h : multiCmd args st = .ok r) : r.2.queued = st.queued := by
  unfold multiCmd at h
  simp only [Bind.bind, Except.bind] at h
  repeat' split at h
  all_goals (try (injection h with h; subst h))
  all_goals simp_all

theorem unknownCmd_queued {c : Bytes} {st : HState} {r : Bytes × HState}
    (h : unknownCmd c st = .ok r) : r.2.queued = st.queued := by
  unfold unknownCmd at h
  injection h with h
  subst h
  rfl

end RedisRust

namespace RedisRust

/-- No arm of `execute_command` touches the queued-commands buffer. -/
theorem executeCommand_queued {now : Int} {cmd : Bytes} {args : List RedisValue}
    {st : HState} {r : Bytes × HState}
    (h : executeCommand now cmd args st = .ok r) : r.2.queued = st.queued := by
  unfold executeCommand at h
  by_cases c1 : cmd = strBytes "PING"
  · rw [if_pos c1] at h
    exact pingCmd_queued h
  · rw [if_neg c1] at h
    by_cases c2 : cmd = strBytes "ECHO"
    · rw [if_pos c2] at h
      exact echoCmd_queued h
    · rw [if_neg c2] at h
      by_cases c3 : cmd = strBytes "SET"
      · rw [if_pos c3] at h
        exact setCmd_queued h
      · rw [if_neg c3] at h
        by_cases c4 : cmd = strBytes "GET"
        · rw [if_pos c4] at h
          exact getCmd_queued h
        · rw [if_neg c4] at h
          by_cases c5 : cmd = strBytes "SUBSCRIBE"
          · rw [if_pos c5] at h
            exact subscribeCmd_queued h
          · rw [if_neg c5] at h
            by_cases c6 : cmd = strBytes "PUBLISH"
            · rw [if_pos c6] at h
              exact publishCmd_queued h
            · rw [if_neg c6] at h
              by_cases c7 : cmd = strBytes "UNSUBSCRIBE"
              · rw [if_pos c7] at h
                exact unsubscribeCmd_queued h
              · rw [if_neg c7] at h
                by_cases c8 : cmd = strBytes "RPUSH"
                · rw [if_pos c8] at h
                  exact rpushCmd_queued h
                · rw [if_neg c8] at h
                  by_cases c9 : cmd = strBytes "LRANGE"
                  · rw [if_pos c9] at h
                    exact lrangeCmd_queued h
                  · rw [if_neg c9] at h
                    by_cases c10 : cmd = strBytes "LPUSH"
                    · rw [if_pos c10] at h
                      exact lpushCmd_queued h
                    · rw [if_neg c10] at h
                      by_cases c11 : cmd = strBytes "LLEN"
                      · rw [if_pos c11] at h
                        exact llenCmd_queued h
                      · rw [if_neg c11] at h
                        by_cases c12 : cmd = strBytes "LPOP"
                        · rw [if_pos c12] at h
                          exact lpopCmd_queued h
                        · rw [if_neg c12] at h
                          by_cases c13 : cmd = strBytes "BLPOP"
                          · rw [if_pos c13] at h
                            exact blpopCmd_queued h
                          · rw [if_neg c13] at h
                            by_cases c14 : cmd = strBytes "TYPE"
                            · rw [if_pos c14] at h
                              exact typeCmd_queued h
                            · rw [if_neg c14] at h
                              by_cases c15 : cmd = strBytes "XADD"
                              · rw [if_pos c15] at h
                                exact xaddCmd_queued h
                              · rw [if_neg c15] at h
                                by_cases c16 : cmd = strBytes "XRANGE"
                                · rw [if_pos c16] at h
                                  exact xrangeCmd_queued h
                                · rw [if_neg c16] at h
                                  by_cases c17 : cmd = strBytes "XREAD"
                                  · rw [if_pos c17] at h
                                    exact xreadCmd_queued h
                                  · rw [if_neg c17] at h
                                    by_cases c18 : cmd = strBytes "INCR"
                                    · rw [if_pos c18] at h
                                      exact incrCmd_queued h
                                    · rw [if_neg c18] at h
                                      by_cases c19 : cmd = strBytes "MULTI"
                                      · rw [if_pos c19] at h
                                        exact multiCmd_queued h
                                      · rw [if_neg c19] at h
                                        exact unknownCmd_queued h

/-- The `exec_queued` loop never touches the queued-commands buffer of
the state it threads. -/
theorem execList_queued (now : Int) (cs : List (List RedisValue)) :
    ∀ st r, execList now cs st = .ok r → r.2.queued = st.queued := by
  induction cs with
  | nil =>
      intro st r h
      unfold execList at h
      injection h with h
      subst h
      rfl
  | cons c cs ih =>
      intro st r h
      unfold execList at h
      simp only [Bind.bind, Except.bind] at h
      cases hA : argE c 0 with
      | error e => simp only [hA] at h; exact Except.noConfusion h
      | ok a =>
      simp only [hA] at h
      cases hS : getStrE a with
      | error e => simp only [hS] at h; exact Except.noConfusion h
      | ok cb =>
      simp only [hS] at h
      cases hE : executeCommand now cb c st with
      | error e => simp only [hE] at h; exact Except.noConfusion h
      | ok r1 =>
      simp only [hE] at h
      cases hR : execList now cs r1.2 with
      | error e => simp only [hR] at h; exact Except.noConfusion h
      | ok rest =>
      simp only [hR] at h
      injection h with h
      subst h
      show rest.2.queued = st.queued
      rw [ih r1.2 rest hR]
      exact executeCommand_queued hE

end RedisRust

namespace RedisRust

/-- C4 (amended) — EXEC without a prior MULTI returns the error
`ERR EXEC without MULTI`; otherwise it runs every queued command in
queuing order against the shared store, responds with `*<n>\r\n`
followed by each queued command's response in order, and clears
`multi_mode` — but the queued-commands buffer is NOT cleared: it still
holds the executed commands afterwards (the spec's "the queued-commands
buffer is empty" does not hold). -/
theorem c4_exec_behavior (now : Int) (args : List RedisValue) (st : HState) :
    (st.multiMode = false →
      handleCommands now (strBytes "EXEC") args st
        = .ok (encode (.error (strBytes "ERR EXEC without MULTI")), st)) ∧
    (∀ outs st1, st.multiMode = true →
      execList now st.queued st = .ok (outs, st1) →
      handleCommands now (strBytes "EXEC") args st
          = .ok ([42] ++ natToDec outs.length ++ crlf ++ outs.flatten,
              { st1 with multiMode := false })
        ∧ ({ st1 with multiMode := false }).queued = st.queued) := by
  have hmem : strBytes "EXEC" ∈ transactionCommands := by decide
  constructor
  · intro hmm
    unfold handleCommands
    rw [if_neg (by simp [hmm]), if_pos rfl]
    unfold execQueued
    rw [if_neg (by simp [hmm])]
  · intro outs st1 hmm hex
    constructor
    · unfold handleCommands
      rw [if_neg (by simp [hmem]), if_pos rfl]
      unfold execQueued
      rw [if_pos (by simp [hmm])]
      simp only [Bind.bind, Except.bind, hex]
    · have hq := execList_queued now st.queued st (outs, st1) hex
      simpa using hq

end RedisRust

namespace RedisRust

/-- A client state in multi-mode with one queued PING command. -/
def stM : HState :=
  { baseSt with multiMode := true, queued := [[.str (strBytes "PING")]] }

/-- Witness for `c4_exec_behavior` at a state with one queued PING. -/
theorem c4_exec_behavior_witness :
    stM.multiMode = true
    ∧ execList 0 stM.queued stM = .ok ([[43] ++ strBytes "PONG" ++ crlf], stM)
    ∧ handleCommands 0 (strBytes "EXEC") [.str (strBytes "EXEC")] stM
        = .ok ([42] ++ natToDec ([[43] ++ strBytes "PONG" ++ crlf] :
                List Bytes).length ++ crlf
              ++ ([[43] ++ strBytes "PONG" ++ crlf] : List Bytes).flatten,
            { stM with multiMode := false })
    ∧ ({ stM with multiMode := false }).queued = stM.queued :=
  ⟨rfl, rfl,
    ((c4_exec_behavior 0 [.str (strBytes "EXEC")] stM).2
        [[43] ++ strBytes "PONG" ++ crlf] stM rfl rfl).1,
    ((c4_exec_behavior 0 [.str (strBytes "EXEC")] stM).2
        [[43] ++ strBytes "PONG" ++ crlf] stM rfl rfl).2⟩

/-- C4 counterexample — after a successful EXEC (one queued PING,
response `*1\r\n+PONG\r\n`) the queued-commands buffer still holds the
executed command: it is not empty, contradicting "afterwards … the
queued-commands buffer is empty". -/
theorem c4_counterexample :
    handleCommands 0 (strBytes "EXEC") [.str (strBytes "EXEC")] stM
      = .ok ([42] ++ natToDec 1 ++ crlf ++ ([43] ++ strBytes "PONG" ++ crlf),
          { stM with multiMode := false })
    ∧ ({ stM with multiMode := false }).queued ≠ [] := by
  constructor
  · rfl
  · simp [stM]

end RedisRust
